import Mathlib

/-!
Verification of the DNS-override library (`src/dns_override.c`).

The development shallowly embeds the C code: address chains become `List
AddrInfo`, the per-call heap becomes an explicit allocation oracle, and the
ambient resolver state (`_res`) becomes an explicit `ResState` value threaded
through `getaddrinfo_model`.  Machine integers are modelled as `Nat`/`Int`
(the only wrapping arithmetic in the modelled code is the 16-bit masking in
DNS64 synthesis, written out explicitly).  External libc routines
(`inet_pton`, `inet_ntop`, `atoi`, `sscanf`) are modelled from their
documented behaviour; everything else is translated from the C source.
-/

namespace DnsOverride

/-! ### Constants (netdb.h / resolv.h / dns_override.c) -/

def AF_UNSPEC : Nat := 0
def AF_INET : Nat := 2
def AF_INET6 : Nat := 10
def MAXNS : Nat := 3
def EAI_MEMORY : Int := -10
def DEFAULT_DNS_PORT : Int := 53
def MAX_DNS_SERVERS : Nat := 8

/-! ### Character-list helpers (C strings are modelled as `List Char`) -/

/-- Number of occurrences of character `c` in a C string (the colon-counting
loop in `load_dns_config`). -/
def countChar (c : Char) (s : List Char) : Nat :=
  (s.filter (fun x => x == c)).length

/-- Models `strrchr(s, c)`: splits `s` at the last occurrence of `c`,
returning the part before and the part after, or `none` when absent. -/
def strrchrSplit (c : Char) : List Char → Option (List Char × List Char)
  | [] => none
  | x :: rest =>
    match strrchrSplit c rest with
    | some (l, r) => some (x :: l, r)
    | none => if x = c then some ([], rest) else none

/-- Models `strstr(s, "::")` followed by writing a NUL at the match
(`synthesize_dns64_address`): truncate at the first occurrence of `"::"`. -/
def truncAtDC : List Char → List Char
  | [] => []
  | [c] => [c]
  | ':' :: ':' :: _ => []
  | c :: rest => c :: truncAtDC rest

/-- Splits at the first occurrence of `"::"`, if any (used by the model of
libc `inet_pton(AF_INET6, ...)`). -/
def splitDC : List Char → Option (List Char × List Char)
  | [] => none
  | [_] => none
  | ':' :: ':' :: rest => some ([], rest)
  | c :: rest =>
    match splitDC rest with
    | some (l, r) => some (c :: l, r)
    | none => none

/-- Whether `s` contains `"::"`. -/
def containsDC (s : List Char) : Bool := (splitDC s).isSome

/-- Splits on every occurrence of a separator character. -/
def splitOnC (c : Char) : List Char → List (List Char)
  | [] => [[]]
  | x :: rest =>
    let r := splitOnC c rest
    if x = c then [] :: r
    else
      match r with
      | [] => [[x]]
      | y :: ys => (x :: y) :: ys

/-- The `':'`-separated parts of `s` (empty string has no parts). -/
def partsOf (s : List Char) : List (List Char) :=
  if s.isEmpty then [] else splitOnC ':' s

/-- Value of a decimal digit string (no validation). -/
def decVal (s : List Char) : Nat :=
  s.foldl (fun a c => a * 10 + (c.toNat - 48)) 0

/-- Value of the leading run of decimal digits. -/
def digitsVal (s : List Char) : Nat := decVal (s.takeWhile Char.isDigit)

/-- Models libc `atoi`: optional sign, then leading decimal digits (the
port strings fed to it never carry leading whitespace, so that step of
`atoi` is omitted). -/
def atoiM : List Char → Int
  | '-' :: rest => -(digitsVal rest : Int)
  | '+' :: rest => (digitsVal rest : Int)
  | s => (digitsVal s : Int)

/-! ### Models of libc `inet_pton` / `inet_ntop`

`inet_pton(AF_INET, ...)` accepts exactly four dot-separated decimal octets,
each 0..255 with no leading zero.  `inet_pton(AF_INET6, ...)` accepts at
most one `"::"`, colon-separated hexadecimal groups of value ≤ 0xffff, an
optional embedded dotted-quad IPv4 address as the last group, 16 bytes in
total (strictly fewer than 16 explicit bytes when `"::"` is present).  These
are external libc routines, modelled from their documented behaviour. -/

/-- One decimal octet as accepted by `inet_pton(AF_INET, ...)`. -/
def decParseOctet (s : List Char) : Option Nat :=
  if s.isEmpty then none
  else if !(s.all Char.isDigit) then none
  else if 2 ≤ s.length ∧ s.head? = some '0' then none
  else if decVal s ≤ 255 then some (decVal s) else none

/-- Octet-sequence parse: all parts must be valid octets. -/
def parseOctets : List (List Char) → Option (List Nat)
  | [] => some []
  | p :: rest =>
    match decParseOctet p, parseOctets rest with
    | some v, some vs => some (v :: vs)
    | _, _ => none

/-- Models `inet_pton(AF_INET, s, dst)`, returning the four address bytes. -/
def pton4 (s : List Char) : Option (List Nat) :=
  match parseOctets (splitOnC '.' s) with
  | some [a, b, c, d] => some [a, b, c, d]
  | _ => none

/-- Hexadecimal digit value. -/
def hexVal (c : Char) : Option Nat :=
  if '0' ≤ c ∧ c ≤ '9' then some (c.toNat - 48)
  else if 'a' ≤ c ∧ c ≤ 'f' then some (c.toNat - 87)
  else if 'A' ≤ c ∧ c ≤ 'F' then some (c.toNat - 55)
  else none

/-- One hexadecimal group of an IPv6 literal: nonempty, all hex digits,
value at most 0xffff (leading zeros allowed, as in libc). -/
def parseHexGroup (s : List Char) : Option Nat :=
  match s.mapM hexVal with
  | none => none
  | some ds =>
    if s.isEmpty then none
    else
      let v := ds.foldl (fun a d => a * 16 + d) 0
      if v ≤ 65535 then some v else none

/-- Hex-only group sequence (the part left of `"::"`), as bytes. -/
def parsePartsHex : List (List Char) → Option (List Nat)
  | [] => some []
  | p :: rest =>
    match parseHexGroup p, parsePartsHex rest with
    | some v, some bs => some (v / 256 :: v % 256 :: bs)
    | _, _ => none

/-- Group sequence whose last group may be an embedded dotted-quad IPv4
address, as bytes. -/
def parsePartsV4 : List (List Char) → Option (List Nat)
  | [] => some []
  | [p] =>
    match parseHexGroup p with
    | some v => some [v / 256, v % 256]
    | none => pton4 p
  | p :: rest =>
    match parseHexGroup p, parsePartsV4 rest with
    | some v, some bs => some (v / 256 :: v % 256 :: bs)
    | _, _ => none

/-- Models `inet_pton(AF_INET6, s, dst)`, returning the 16 address bytes. -/
def pton6 (s : List Char) : Option (List Nat) :=
  match splitDC s with
  | some (l, r) =>
    if containsDC r then none
    else
      match parsePartsHex (partsOf l), parsePartsV4 (partsOf r) with
      | some lb, some rb =>
        if lb.length + rb.length ≤ 14 then
          some (lb ++ List.replicate (16 - lb.length - rb.length) 0 ++ rb)
        else none
      | _, _ => none
  | none =>
    match parsePartsV4 (partsOf s) with
    | some bs => if bs.length = 16 then some bs else none
    | none => none

/-- Lowercase hexadecimal digit character. -/
def hexDigit (n : Nat) : Char :=
  if n < 10 then Char.ofNat (48 + n) else Char.ofNat (87 + n)

/-- Digit-by-digit hexadecimal rendering, structurally recursive on a fuel
bound (any `fuel > n` yields the digits of `n`). -/
def hexRenderAux : Nat → Nat → List Char
  | 0, _ => []
  | fuel + 1, n =>
    if n < 16 then [hexDigit n]
    else hexRenderAux fuel (n / 16) ++ [hexDigit (n % 16)]

/-- Rendering of `n` as `printf "%x"` does: lowercase hex, no padding. -/
def hexRender (n : Nat) : List Char := hexRenderAux (n + 1) n

/-- Digit-by-digit decimal rendering, structurally recursive on a fuel
bound. -/
def decRenderAux : Nat → Nat → List Char
  | 0, _ => []
  | fuel + 1, n =>
    if n < 10 then [Char.ofNat (48 + n)]
    else decRenderAux fuel (n / 10) ++ [Char.ofNat (48 + n % 10)]

/-- Rendering of `n` as `printf "%d"` does for nonnegative values. -/
def decRender (n : Nat) : List Char := decRenderAux (n + 1) n

/-- Models `inet_ntop(AF_INET, ...)`: dotted-quad rendering of four bytes. -/
def ntop4 (bytes : List Nat) : Option (List Char) :=
  match bytes with
  | [a, b, c, d] =>
    some (decRender a ++ '.' :: decRender b ++ '.' :: decRender c ++ '.' :: decRender d)
  | _ => none

/-! ### Data model

`struct addrinfo` records and the address chain.  A chain (`struct addrinfo`
list linked through `ai_next`) is a `List AddrInfo`; the empty list models a
NULL chain pointer.  The port lives inside `ai_addr` in C; it is a separate
field here, as are the address bytes (`ai_addrlen` is determined by them). -/

structure AddrInfo where
  family : Nat
  socktype : Nat
  protocol : Nat
  addr : List Nat
  port : Nat
  canonname : Option (List Char)
deriving DecidableEq

/-- One accepted `dns_server` line: `dns_servers[i]`, `dns_ports[i]`,
`dns_families[i]` in `struct dns_config`. -/
structure ServerEntry where
  addr : List Char
  port : Int
  family : Nat
deriving DecidableEq

/-- `struct dns_config` (dns_override.c:30-42).  `dns64Pfx` models the
`dns64_prefix` field. -/
structure Config where
  servers : List ServerEntry
  timeout_ms : Int
  use_tcp : Bool
  debug : Bool
  enable_dns64 : Bool
  dns64Pfx : List Char
  filter_aaaa : Bool
  filter_a : Bool
deriving DecidableEq

/-! ### Allocation model

`malloc`/`calloc`/`strdup` outcomes are drawn from an oracle: the next
element of `oracle` decides the next allocation (an exhausted oracle always
succeeds).  `live` counts allocations made and not yet freed, so that the
no-leak obligations of the pipeline stages can be stated. -/

structure Heap where
  oracle : List Bool
  live : Nat
deriving DecidableEq

/-- One `malloc`: pops the oracle; a successful allocation becomes live. -/
def Heap.alloc : Heap → Bool × Heap
  | ⟨[], live⟩ => (true, ⟨[], live + 1⟩)
  | ⟨b :: rest, live⟩ => (b, ⟨rest, if b then live + 1 else live⟩)

/-- Releases `n` live allocations (`free` / `freeaddrinfo` calls). -/
def Heap.free (h : Heap) (n : Nat) : Heap := ⟨h.oracle, h.live - n⟩

/-- Allocations held by one deep-copied record in the filter stages:
the `addrinfo` node, its `sockaddr`, and the `strdup`ed canonical name
when present. -/
def recAllocs (r : AddrInfo) : Nat :=
  2 + (if r.canonname.isSome then 1 else 0)

/-- Total allocations held by a rebuilt chain. -/
def chainAllocs (l : List AddrInfo) : Nat := (l.map recAllocs).sum

/-! ### DNS64 synthesis (dns_override.c:237-269) -/

/-- Models `synthesize_dns64_address(ipv4_str, ipv6_str, ipv6_len)`.  The C
function reads the prefix from the global config (already at most 45 chars;
the local `strncpy` copy is the `take 45`); it truncates the prefix at the
first `"::"` (via `strstr`), assembles the host-order 32-bit value of the
IPv4 address, and formats `"%s::%x:%x"` of the prefix and the upper and
lower 16 bits into a buffer of `len` bytes (`snprintf` keeps at most
`len - 1` characters). -/
def synthesize_dns64_address (pfx ip4 : List Char) (len : Nat) : Option (List Char) :=
  match pton4 ip4 with
  | none => none
  | some bytes =>
    let p := truncAtDC (pfx.take 45)
    let v := bytes.foldl (fun a b => a * 256 + b) 0
    let high := (v >>> 16) &&& 0xFFFF
    let low := v &&& 0xFFFF
    some ((p ++ ':' :: ':' :: (hexRender high ++ ':' :: hexRender low)).take (len - 1))

/-! ### Pipeline stage: DNS64 record synthesis (dns_override.c:272-347) -/

/-- The per-record body of the `add_dns64_addresses` loop for an IPv4
record: render the address, synthesize the DNS64 string, `malloc` the new
`addrinfo` node and its `sockaddr_in6` (two allocations, attempted before
the result string is parsed), then parse the synthesized string.  On any
failure the partial allocations are freed and no record is produced.  A
produced record keeps the source record's socket type, protocol and port;
`ai_canonname` of the `memset`-zeroed node stays NULL. -/
def dns64_record (cfg : Config) (h : Heap) (r : AddrInfo) : Option AddrInfo × Heap :=
  match ntop4 r.addr with
  | none => (none, h)
  | some ip4 =>
    match synthesize_dns64_address cfg.dns64Pfx ip4 46 with
    | none => (none, h)
    | some ip6 =>
      let (ok1, h1) := h.alloc
      let (ok2, h2) := h1.alloc
      if ok1 && ok2 then
        match pton6 ip6 with
        | some bytes =>
          (some { family := AF_INET6, socktype := r.socktype, protocol := r.protocol,
                  addr := bytes, port := r.port, canonname := none }, h2)
        | none => (none, h2.free 2)
      else
        (none, h2.free ((if ok1 then 1 else 0) + (if ok2 then 1 else 0)))

/-- The traversal of `add_dns64_addresses`: for each IPv4 record, try to
synthesize; successes are appended at the tail of the chain.  (The C code
appends in place while walking the same chain; the walk then reaches the
appended records, which are IPv6 and are skipped, so the result is the
input chain followed by the synthesized records, as built here.)  Returns
the synthesized records, their count, and the heap. -/
def add_dns64_loop (cfg : Config) (h : Heap) : List AddrInfo → List AddrInfo × Nat × Heap
  | [] => ([], 0, h)
  | r :: rest =>
    if r.family == AF_INET then
      match dns64_record cfg h r with
      | (some s, h1) =>
        let (tail, n, h2) := add_dns64_loop cfg h1 rest
        (s :: tail, n + 1, h2)
      | (none, h1) => add_dns64_loop cfg h1 rest
    else add_dns64_loop cfg h rest

/-- Models `add_dns64_addresses(result, ipv4_results)` (called with
`ipv4_results == *result`): returns the count of records added, the updated
chain, and the heap.  Allocation failures only skip the affected record;
the function never reports an error. -/
def add_dns64_addresses (cfg : Config) (h : Heap) (res : List AddrInfo) :
    Int × List AddrInfo × Heap :=
  if !cfg.enable_dns64 || res.isEmpty then (0, res, h)
  else
    let (synths, n, h1) := add_dns64_loop cfg h res
    ((n : Int), res ++ synths, h1)

/-! ### Pipeline stages: AAAA / A filters (dns_override.c:350-434, 437-521) -/

/-- Deep copy of one record in the filter stages: `malloc` the node, `malloc`
the `sockaddr`, `strdup` the canonical name when present.  On a failed
allocation the partial allocations already made for this record are freed
and the error is reported with the heap. -/
def copyRecord (h : Heap) (r : AddrInfo) : Except Heap Heap :=
  let (ok1, h1) := h.alloc
  if ok1 then
    let (ok2, h2) := h1.alloc
    if ok2 then
      match r.canonname with
      | some _ =>
        let (ok3, h3) := h2.alloc
        if ok3 then .ok h3 else .error (h3.free 2)
      | none => .ok h2
    else .error (h2.free 1)
  else .error h1

/-- The rebuild loop of `filter_aaaa_records`: IPv6 records are skipped and
counted, every other record is deep-copied into the new chain in order.  On
an allocation failure the stage frees the new chain built so far
(`freeaddrinfo(new_result)`) and reports the error.  (The C loop appends at
the tail of the new chain while walking; structural recursion builds the
same sequence, and the error path releases the same set of copies.) -/
def filter_aaaa_loop (h : Heap) : List AddrInfo → Except Heap (List AddrInfo × Nat × Heap)
  | [] => .ok ([], 0, h)
  | r :: rest =>
    if r.family == AF_INET6 then
      match filter_aaaa_loop h rest with
      | .ok (tail, n, h1) => .ok (tail, n + 1, h1)
      | .error h1 => .error h1
    else
      match copyRecord h r with
      | .error h1 => .error h1
      | .ok h1 =>
        match filter_aaaa_loop h1 rest with
        | .ok (tail, n, h2) => .ok (r :: tail, n, h2)
        | .error h2 => .error (h2.free (recAllocs r))

/-- Models `filter_aaaa_records(result)`: returns the removed count (or -1
on allocation failure, in which case `*result` is not replaced), the chain
`*result` holds afterwards, and the heap.  On success the original chain is
freed (provider-owned, outside this stage's `live` accounting) and replaced
by the rebuilt one. -/
def filter_aaaa_records (cfg : Config) (h : Heap) (res : List AddrInfo) :
    Int × List AddrInfo × Heap :=
  if !cfg.filter_aaaa || res.isEmpty then (0, res, h)
  else
    match filter_aaaa_loop h res with
    | .ok (newRes, removed, h1) => ((removed : Int), newRes, h1)
    | .error h1 => (-1, res, h1)

/-- The rebuild loop of `filter_a_records`: same as `filter_aaaa_loop` with
IPv4 records skipped instead. -/
def filter_a_loop (h : Heap) : List AddrInfo → Except Heap (List AddrInfo × Nat × Heap)
  | [] => .ok ([], 0, h)
  | r :: rest =>
    if r.family == AF_INET then
      match filter_a_loop h rest with
      | .ok (tail, n, h1) => .ok (tail, n + 1, h1)
      | .error h1 => .error h1
    else
      match copyRecord h r with
      | .error h1 => .error h1
      | .ok h1 =>
        match filter_a_loop h1 rest with
        | .ok (tail, n, h2) => .ok (r :: tail, n, h2)
        | .error h2 => .error (h2.free (recAllocs r))

/-- Models `filter_a_records(result)`. -/
def filter_a_records (cfg : Config) (h : Heap) (res : List AddrInfo) :
    Int × List AddrInfo × Heap :=
  if !cfg.filter_a || res.isEmpty then (0, res, h)
  else
    match filter_a_loop h res with
    | .ok (newRes, removed, h1) => ((removed : Int), newRes, h1)
    | .error h1 => (-1, res, h1)

/-! ### Server token parsing and config loading (dns_override.c:54-224) -/

/-- Models the `dns_server` token disambiguation of `load_dns_config`
(dns_override.c:97-181): bracketed IPv6 with optional `:port` after `]`;
otherwise more than one colon means a bare IPv6 literal, exactly one colon
means IPv4 followed by a port (split at the last colon, `strrchr`), no
colon means a bare IPv4 address.  Unbracketed addresses are copied through
a 46-byte buffer (`strncpy`, hence `take 45`); the bracketed and
IPv4-with-port paths instead skip tokens whose address part does not fit.
The extracted address is validated with `inet_pton` for the assumed family;
on failure the token yields no entry. -/
def parse_dns_server (value : List Char) : Option ServerEntry :=
  if value.head? = some '[' then
    let rest := value.tail
    if rest.contains ']' then
      let a := rest.takeWhile (fun c => c != ']')
      let after := (rest.dropWhile (fun c => c != ']')).tail
      if a.length < 46 then
        let port : Int := if after.head? = some ':' then atoiM after.tail else DEFAULT_DNS_PORT
        if (pton6 a).isSome then some ⟨a, port, AF_INET6⟩ else none
      else none
    else none
  else
    if countChar ':' value > 1 then
      let a := value.take 45
      if (pton6 a).isSome then some ⟨a, DEFAULT_DNS_PORT, AF_INET6⟩ else none
    else
      match strrchrSplit ':' value with
      | some (a, p) =>
        if a.length < 46 then
          if (pton4 a).isSome then some ⟨a, atoiM p, AF_INET⟩ else none
        else none
      | none =>
        let a := value.take 45
        if (pton4 a).isSome then some ⟨a, DEFAULT_DNS_PORT, AF_INET⟩ else none

/-- `sscanf`-style whitespace. -/
def isSpace (c : Char) : Bool :=
  c.toNat = 32 ∨ c.toNat = 9 ∨ (10 ≤ c.toNat ∧ c.toNat ≤ 13)

/-- Whitespace-separated words of a line. -/
def wordsAux : List Char → List Char → List (List Char)
  | [], acc => if acc.isEmpty then [] else [acc.reverse]
  | c :: rest, acc =>
    if isSpace c then
      if acc.isEmpty then wordsAux rest [] else acc.reverse :: wordsAux rest []
    else wordsAux rest (c :: acc)

def words (s : List Char) : List (List Char) := wordsAux s []

/-- Models `sscanf(line, "%255s %255s", key, value) == 2`: the first two
whitespace-separated tokens, each capped at 255 characters; a longer first
token is split in place by the width limit. -/
def scanKV (line : List Char) : Option (List Char × List Char) :=
  match words line with
  | [] => none
  | w :: ws =>
    if w.length ≤ 255 then
      match ws with
      | [] => none
      | v :: _ => some (w, v.take 255)
    else some (w.take 255, (w.drop 255).take 255)

/-- `strcmp(value,"true")==0 || strcmp(value,"1")==0`. -/
def boolVal (v : List Char) : Bool :=
  v = "true".data ∨ v = "1".data

/-- One iteration of the config-file line loop.  Lines are the
newline-stripped `fgets` results; a leading `#` (or an originally empty
line) is skipped, as is any line without two tokens.  `dns_server` entries
are accepted only below capacity; other recognized keys overwrite the
corresponding field; unknown keys are ignored. -/
def processLine (cfg : Config) (line : List Char) : Config :=
  if line.isEmpty ∨ line.head? = some '#' then cfg
  else
    match scanKV line with
    | none => cfg
    | some (key, value) =>
      if key = "dns_server".data ∧ cfg.servers.length < MAX_DNS_SERVERS then
        match parse_dns_server value with
        | some e => { cfg with servers := cfg.servers ++ [e] }
        | none => cfg
      else if key = "timeout".data then { cfg with timeout_ms := atoiM value }
      else if key = "use_tcp".data then { cfg with use_tcp := boolVal value }
      else if key = "debug".data then { cfg with debug := boolVal value }
      else if key = "enable_dns64".data then { cfg with enable_dns64 := boolVal value }
      else if key = "dns64_prefix".data then { cfg with dns64Pfx := value.take 45 }
      else if key = "filter_aaaa".data then { cfg with filter_aaaa := boolVal value }
      else if key = "filter_a".data then { cfg with filter_a := boolVal value }
      else cfg

/-- The defaults installed at the top of `load_dns_config`
(dns_override.c:57-66). -/
def defaultConfig : Config :=
  { servers := [], timeout_ms := 5000, use_tcp := false, debug := false,
    enable_dns64 := false, dns64Pfx := "64:ff9b::".data,
    filter_aaaa := false, filter_a := false }

/-- The built-in fallback servers (dns_override.c:72-76, 215-219).  The C
code assigns only `dns_servers[i]` and `dns_ports[i]`; `dns_families[i]`
keeps the value 0 (`AF_UNSPEC`) left by the zero-initialization of the
static `config` struct. -/
def defaultServers : List ServerEntry :=
  [⟨"8.8.8.8".data, DEFAULT_DNS_PORT, AF_UNSPEC⟩,
   ⟨"1.1.1.1".data, DEFAULT_DNS_PORT, AF_UNSPEC⟩]

/-- Models `load_dns_config()`: `none` is an unreadable config source
(`fopen` failed), `some lines` its newline-stripped lines.  An unreadable
source, or a parse yielding zero accepted servers, falls back to the
built-in default pair. -/
def load_dns_config : Option (List (List Char)) → Config
  | none => { defaultConfig with servers := defaultServers }
  | some lines =>
    let c := lines.foldl processLine defaultConfig
    if c.servers.length = 0 then { c with servers := defaultServers } else c

/-! ### The overridden `getaddrinfo` (dns_override.c:662-849)

The ambient resolver configuration `_res` is modelled by `ResState`: the
fields the override touches (`nscount`, `_u._ext.nscount6`, `retrans`,
`retry`) plus `other`, abstracting every remaining byte of
`struct __res_state` (saved and restored by the surrounding `memcpy`s). -/

structure ResState where
  nscount : Nat
  nscount6 : Nat
  retrans : Int
  retry : Int
  other : Nat
deriving DecidableEq

/-- The nameserver-install loop (dns_override.c:683-729), threading the
allocation oracle and the count of live per-call `calloc`ed IPv6 nameserver
descriptors.  IPv4 servers that validate go into `nsaddr_list` and bump
`nscount`; IPv6 servers get a descriptor allocated, and on successful
validation it is stored (bumping `nscount6`, plus an `AF_UNSPEC`
placeholder in `nsaddr_list` while below `MAXNS`), otherwise freed. -/
def install_nameservers (rs : ResState) (oracle : List Bool) (nsLive : Nat)
    (i4 i6 : Nat) : List ServerEntry → ResState × List Bool × Nat
  | [] => (rs, oracle, nsLive)
  | s :: rest =>
    if ¬ (i4 < MAXNS ∨ i6 < MAXNS) then (rs, oracle, nsLive)
    else if s.family = AF_INET ∧ i4 < MAXNS then
      if (pton4 s.addr).isSome then
        install_nameservers { rs with nscount := rs.nscount + 1 } oracle nsLive (i4 + 1) i6 rest
      else
        install_nameservers rs oracle nsLive i4 i6 rest
    else if s.family = AF_INET6 ∧ i6 < MAXNS then
      if oracle.head?.getD true then
        if (pton6 s.addr).isSome then
          install_nameservers
            { rs with nscount6 := rs.nscount6 + 1,
                      nscount := if rs.nscount < MAXNS then rs.nscount + 1 else rs.nscount }
            oracle.tail (nsLive + 1) i4 (i6 + 1) rest
        else
          install_nameservers rs oracle.tail nsLive i4 i6 rest
      else
        install_nameservers rs oracle.tail nsLive i4 i6 rest
    else
      install_nameservers rs oracle nsLive i4 i6 rest

/-- What the override returns, along with the final ambient resolver state
and the number of per-call nameserver descriptors still live. -/
structure GaiOut where
  ret : Int
  res : List AddrInfo
  resState : ResState
  nsLive : Nat
deriving DecidableEq

/-- The result-transformation pipeline of the overridden `getaddrinfo`
(dns_override.c:739-790), applied to a successful provider result: the
three stages in their fixed order — drop-AAAA, synthesize, drop-A — each
guarded by its flag (and, for stages 2 and 3, a non-NULL current chain).
Returns the final return code (`0`, or `EAI_MEMORY` when a filter stage
reported an allocation failure) together with the chain `*res` then
holds. -/
def run_pipeline (cfg : Config) (h : Heap) (res : List AddrInfo) : Int × List AddrInfo :=
  let st1 :=
    if cfg.filter_aaaa then filter_aaaa_records cfg h res
    else (0, res, h)
  if st1.1 < 0 then (EAI_MEMORY, st1.2.1)
  else
    let st2 :=
      if cfg.enable_dns64 ∧ ¬ st1.2.1.isEmpty then add_dns64_addresses cfg st1.2.2 st1.2.1
      else (0, st1.2.1, st1.2.2)
    let st3 :=
      if cfg.filter_a ∧ ¬ st2.2.1.isEmpty then filter_a_records cfg st2.2.2 st2.2.1
      else (0, st2.2.1, st2.2.2)
    if st3.1 < 0 then (EAI_MEMORY, st3.2.1)
    else (0, st3.2.1)

/-- Models the overridden `getaddrinfo`.  Parameters: the loaded config;
`r0`, the ambient `_res` saved on entry; `rInit`, the state `res_init()`
installs; `node`, whether a hostname was passed; the delegated provider
call's return code and (on success) result chain; and the allocation
oracle.  The pipeline (drop-AAAA, synthesize, drop-A) runs only on a
successful provider result with a hostname and a non-NULL chain; a filter
stage's allocation failure exits with `EAI_MEMORY`.  Every exit path frees
the live nameserver descriptors and restores `r0`. -/
def getaddrinfo_model (cfg : Config) (r0 rInit : ResState) (node : Bool)
    (providerRet : Int) (providerChain : List AddrInfo) (oracle : List Bool) : GaiOut :=
  let r1 : ResState := { rInit with nscount := 0, nscount6 := 0 }
  let ins := install_nameservers r1 oracle 0 0 0 cfg.servers
  let r2 := ins.1
  let oracle2 := ins.2.1
  let nsLive := ins.2.2
  let r3 : ResState := { r2 with retrans := cfg.timeout_ms / 1000, retry := 2 }
  if providerRet = 0 ∧ node ∧ ¬ providerChain.isEmpty then
    let pl := run_pipeline cfg ⟨oracle2, 0⟩ providerChain
    { ret := if pl.1 < 0 then EAI_MEMORY else providerRet,
      res := pl.2, resState := r0, nsLive := nsLive - r3.nscount6 }
  else
    { ret := providerRet, res := providerChain, resState := r0, nsLive := nsLive - r3.nscount6 }

/-! ### Concrete fixtures used by witnesses and counterexamples -/

/-- An IPv4 (A) record: `1.2.3.4:80`, TCP. -/
def sampleV4 : AddrInfo := ⟨AF_INET, 1, 6, [1, 2, 3, 4], 80, none⟩

/-- An IPv6 (AAAA) record: `::1` port 80, TCP. -/
def sampleV6 : AddrInfo := ⟨AF_INET6, 1, 6, List.replicate 15 0 ++ [1], 80, none⟩

/-- A config with only the AAAA filter enabled. -/
def cfgFilterAAAA : Config := { defaultConfig with filter_aaaa := true }

/-- A config with only DNS64 synthesis enabled. -/
def cfgDns64 : Config := { defaultConfig with enable_dns64 := true }

/-- Arbitrary ambient resolver state used by concrete runs. -/
def resAmbient : ResState := ⟨5, 5, 5, 5, 5⟩

/-- Arbitrary `res_init()` result used by concrete runs. -/
def resInitState : ResState := ⟨1, 0, 5, 4, 3⟩

/-! ### Heap and copy lemmas -/

theorem Heap_free_live (h : Heap) (n : Nat) : (h.free n).live = h.live - n := rfl

theorem Heap_free_oracle (h : Heap) (n : Nat) : (h.free n).oracle = h.oracle := rfl

/-- With an exhausted oracle every allocation succeeds: a record copy
succeeds and holds `recAllocs r` new live allocations. -/
theorem copyRecord_clean (h : Heap) (r : AddrInfo) (ho : h.oracle = []) :
    copyRecord h r = .ok ⟨[], h.live + recAllocs r⟩ := by
  obtain ⟨o, live⟩ := h
  subst ho
  cases hc : r.canonname <;>
    simp [copyRecord, Heap.alloc, recAllocs, hc, Nat.add_assoc]

/-- A record copy that reports failure has freed its partial allocations:
the live count is unchanged. -/
theorem copyRecord_error_live {h h1 : Heap} {r : AddrInfo}
    (e : copyRecord h r = .error h1) : h1.live = h.live := by
  obtain ⟨o, live⟩ := h
  rcases o with _ | ⟨b1, o⟩
  · rw [copyRecord_clean ⟨[], live⟩ r rfl] at e
    exact absurd e (by simp)
  · cases b1
    · simp [copyRecord, Heap.alloc] at e
      simp [← e, Heap.free]
    · rcases o with _ | ⟨b2, o⟩
      · cases hc : r.canonname <;>
          simp [copyRecord, Heap.alloc, hc] at e <;> simp [← e, Heap.free]
      · cases b2
        · cases hc : r.canonname <;>
            simp [copyRecord, Heap.alloc, hc] at e <;> simp [← e, Heap.free]
        · rcases o with _ | ⟨b3, o⟩
          · cases hc : r.canonname <;>
              simp [copyRecord, Heap.alloc, hc] at e <;> simp [← e, Heap.free]
          · cases b3 <;> cases hc : r.canonname <;>
              simp [copyRecord, Heap.alloc, hc] at e <;> simp [← e, Heap.free]

/-- A successful record copy holds exactly `recAllocs r` new live
allocations. -/
theorem copyRecord_ok_live {h h1 : Heap} {r : AddrInfo}
    (e : copyRecord h r = .ok h1) : h1.live = h.live + recAllocs r := by
  obtain ⟨o, live⟩ := h
  rcases o with _ | ⟨b1, o⟩
  · rw [copyRecord_clean ⟨[], live⟩ r rfl] at e
    cases e
    rfl
  · cases b1
    · simp [copyRecord, Heap.alloc] at e
    · rcases o with _ | ⟨b2, o⟩
      · cases hc : r.canonname <;>
          simp [copyRecord, Heap.alloc, hc, recAllocs] at e <;>
          simp [← e, recAllocs, hc, Heap.free, Nat.add_assoc]
      · cases b2
        · cases hc : r.canonname <;>
            simp [copyRecord, Heap.alloc, hc] at e
        · rcases o with _ | ⟨b3, o⟩
          · cases hc : r.canonname <;>
              simp [copyRecord, Heap.alloc, hc, recAllocs] at e <;>
              simp [← e, recAllocs, hc, Heap.free, Nat.add_assoc]
          · cases b3 <;> cases hc : r.canonname <;>
              simp [copyRecord, Heap.alloc, hc, recAllocs] at e <;>
              simp [← e, recAllocs, hc, Heap.free, Nat.add_assoc]

theorem chainAllocs_nil : chainAllocs [] = 0 := rfl

theorem chainAllocs_cons (r : AddrInfo) (l : List AddrInfo) :
    chainAllocs (r :: l) = recAllocs r + chainAllocs l := by
  simp [chainAllocs]

/-! ### Filter-stage lemmas -/

/-- On an exhausted oracle the AAAA-filter loop succeeds, keeps exactly the
non-IPv6 records in order, counts the IPv6 records, and holds the copies'
allocations live. -/
theorem filter_aaaa_loop_clean (res : List AddrInfo) (h : Heap) (ho : h.oracle = []) :
    filter_aaaa_loop h res =
      .ok (res.filter (fun r => !(r.family == AF_INET6)),
           res.countP (fun r => r.family == AF_INET6),
           ⟨[], h.live + chainAllocs (res.filter (fun r => !(r.family == AF_INET6)))⟩) := by
  induction res generalizing h with
  | nil =>
    obtain ⟨o, live⟩ := h
    subst ho
    simp [filter_aaaa_loop, chainAllocs]
  | cons r rest ih =>
    by_cases hf : r.family == AF_INET6
    · simp [filter_aaaa_loop, hf, ih h ho, List.countP_cons, List.filter_cons]
    · simp [filter_aaaa_loop, hf, copyRecord_clean h r ho,
            ih ⟨[], h.live + recAllocs r⟩ rfl, List.countP_cons, List.filter_cons,
            chainAllocs_cons]
      omega

/-- If the AAAA-filter loop reports an allocation failure, every record it
allocated has been released: the live count is back to its initial value. -/
theorem filter_aaaa_loop_error {res : List AddrInfo} : ∀ {h h1 : Heap},
    filter_aaaa_loop h res = .error h1 → h1.live = h.live := by
  induction res with
  | nil =>
    intro h h1 e
    simp [filter_aaaa_loop] at e
  | cons r rest ih =>
    intro h h1 e
    rw [filter_aaaa_loop] at e
    by_cases hf : r.family == AF_INET6
    · rw [if_pos hf] at e
      rcases hrec : filter_aaaa_loop h rest with h2 | ⟨tail, n, h2⟩ <;>
        simp only [hrec] at e
      · injection e with e
        subst e
        exact ih hrec
      · exact absurd e (by simp)
    · rw [if_neg hf] at e
      rcases hcp : copyRecord h r with h2 | h2 <;> simp only [hcp] at e
      · injection e with e
        subst e
        exact copyRecord_error_live hcp
      · rcases hrec : filter_aaaa_loop h2 rest with h3 | ⟨tail, n, h3⟩ <;>
          simp only [hrec] at e
        · injection e with e
          subst e
          have e1 := ih hrec
          have e2 := copyRecord_ok_live hcp
          simp only [Heap_free_live]
          omega
        · exact absurd e (by simp)

/-- `filter_a_loop` analogue of `filter_aaaa_loop_clean`. -/
theorem filter_a_loop_clean (res : List AddrInfo) (h : Heap) (ho : h.oracle = []) :
    filter_a_loop h res =
      .ok (res.filter (fun r => !(r.family == AF_INET)),
           res.countP (fun r => r.family == AF_INET),
           ⟨[], h.live + chainAllocs (res.filter (fun r => !(r.family == AF_INET)))⟩) := by
  induction res generalizing h with
  | nil =>
    obtain ⟨o, live⟩ := h
    subst ho
    simp [filter_a_loop, chainAllocs]
  | cons r rest ih =>
    by_cases hf : r.family == AF_INET
    · simp [filter_a_loop, hf, ih h ho, List.countP_cons, List.filter_cons]
    · simp [filter_a_loop, hf, copyRecord_clean h r ho,
            ih ⟨[], h.live + recAllocs r⟩ rfl, List.countP_cons, List.filter_cons,
            chainAllocs_cons]
      omega

/-- `filter_a_loop` analogue of `filter_aaaa_loop_error`. -/
theorem filter_a_loop_error {res : List AddrInfo} : ∀ {h h1 : Heap},
    filter_a_loop h res = .error h1 → h1.live = h.live := by
  induction res with
  | nil =>
    intro h h1 e
    simp [filter_a_loop] at e
  | cons r rest ih =>
    intro h h1 e
    rw [filter_a_loop] at e
    by_cases hf : r.family == AF_INET
    · rw [if_pos hf] at e
      rcases hrec : filter_a_loop h rest with h2 | ⟨tail, n, h2⟩ <;>
        simp only [hrec] at e
      · injection e with e
        subst e
        exact ih hrec
      · exact absurd e (by simp)
    · rw [if_neg hf] at e
      rcases hcp : copyRecord h r with h2 | h2 <;> simp only [hcp] at e
      · injection e with e
        subst e
        exact copyRecord_error_live hcp
      · rcases hrec : filter_a_loop h2 rest with h3 | ⟨tail, n, h3⟩ <;>
          simp only [hrec] at e
        · injection e with e
          subst e
          have e1 := ih hrec
          have e2 := copyRecord_ok_live hcp
          simp only [Heap_free_live]
          omega
        · exact absurd e (by simp)

/-- Under the §3 data model every record is IPv4 or IPv6, so keeping the
non-IPv6 records is keeping the IPv4 records. -/
theorem filter_family_eq (res : List AddrInfo)
    (hwf : ∀ r ∈ res, r.family = AF_INET ∨ r.family = AF_INET6) :
    res.filter (fun r => !(r.family == AF_INET6)) =
      res.filter (fun r => r.family == AF_INET) := by
  induction res with
  | nil => rfl
  | cons r rest ih =>
    have hr := hwf r (by simp)
    have hrest := ih fun x hx => hwf x (by simp [hx])
    simp only [AF_INET, AF_INET6] at hr hrest ⊢
    rcases hr with hfam | hfam <;> simp [List.filter_cons, hfam, hrest]

/-- Under the §3 data model the chain length splits into the IPv4 count and
the IPv6 count. -/
theorem length_family_split (res : List AddrInfo)
    (hwf : ∀ r ∈ res, r.family = AF_INET ∨ r.family = AF_INET6) :
    res.length = (res.filter (fun r => r.family == AF_INET)).length +
      (res.filter (fun r => r.family == AF_INET6)).length := by
  induction res with
  | nil => rfl
  | cons r rest ih =>
    have hr := hwf r (by simp)
    have hrest := ih fun x hx => hwf x (by simp [hx])
    simp only [AF_INET, AF_INET6] at hr hrest ⊢
    rcases hr with hfam | hfam <;> simp [List.filter_cons, hfam] <;> omega

/-! ### Claim C1 — drop-AAAA stage -/

/-- C1 (counterexample): on the one-record chain `[sampleV6]` the drop-AAAA
stage reports removed-count 1, while the claim's removed-count
`|C| - #IPv6 = 1 - 1 = 0`; the claim misstates the reported count. -/
theorem C1_removed_count_cex :
    (filter_aaaa_records cfgFilterAAAA ⟨[], 0⟩ [sampleV6]).1 = 1 ∧
    (([sampleV6] : List AddrInfo).length : Int) -
      (([sampleV6].filter (fun r => r.family == AF_INET6)).length : Int) = 0 ∧
    (1 : Int) ≠ 0 := by
  decide

/-- C1 (amended): with `filterAAAA` enabled and no allocation failure, on a
chain of IPv4/IPv6 records the drop-AAAA stage replaces the chain with
exactly the IPv4-family records of `C` in their original relative order,
and reports as removed-count the number of IPv6-family records of `C`
(equivalently `|C|` minus the number of IPv4-family records). -/
theorem C1_filter_aaaa_spec (cfg : Config) (h : Heap) (res : List AddrInfo)
    (hflag : cfg.filter_aaaa = true) (ho : h.oracle = [])
    (hwf : ∀ r ∈ res, r.family = AF_INET ∨ r.family = AF_INET6) :
    (filter_aaaa_records cfg h res).2.1 = res.filter (fun r => r.family == AF_INET) ∧
    (filter_aaaa_records cfg h res).1 =
      ((res.filter (fun r => r.family == AF_INET6)).length : Int) ∧
    (filter_aaaa_records cfg h res).1 =
      (res.length : Int) - ((res.filter (fun r => r.family == AF_INET)).length : Int) := by
  have hfe := filter_family_eq res hwf
  have hls := length_family_split res hwf
  by_cases hres : res.isEmpty
  · have hnil : res = [] := by simpa [List.isEmpty_iff] using hres
    subst hnil
    simp [filter_aaaa_records]
  · have hres' : res.isEmpty = false := by simpa using hres
    have hloop := filter_aaaa_loop_clean res h ho
    simp only [filter_aaaa_records, hflag, hres', Bool.not_true, Bool.false_or,
      if_false, hloop]
    refine ⟨hfe, ?_, ?_⟩
    · simp [List.countP_eq_length_filter]
    · rw [List.countP_eq_length_filter]
      push_cast
      omega

/-- C1 (witness): the amended statement evaluated on `[sampleV4, sampleV6]`. -/
theorem C1_filter_aaaa_spec_witness :
    (filter_aaaa_records cfgFilterAAAA ⟨[], 0⟩ [sampleV4, sampleV6]).2.1 = [sampleV4] ∧
    (filter_aaaa_records cfgFilterAAAA ⟨[], 0⟩ [sampleV4, sampleV6]).1 = 1 := by
  have h := C1_filter_aaaa_spec cfgFilterAAAA ⟨[], 0⟩ [sampleV4, sampleV6] rfl rfl
    (by decide)
  refine ⟨?_, ?_⟩
  · rw [h.1]
    decide
  · rw [h.2.1]
    decide

/-! ### Claim C9 — drop-AAAA idempotence -/

/-- C9: applying the drop-AAAA stage to its own output removes 0 records
and returns that output unchanged (no allocation failure assumed, as in
the first application's success). -/
theorem C9_filter_aaaa_idempotent (cfg : Config) (h : Heap) (res : List AddrInfo)
    (hflag : cfg.filter_aaaa = true) (ho : h.oracle = []) :
    (filter_aaaa_records cfg (filter_aaaa_records cfg h res).2.2
        (filter_aaaa_records cfg h res).2.1).1 = 0 ∧
    (filter_aaaa_records cfg (filter_aaaa_records cfg h res).2.2
        (filter_aaaa_records cfg h res).2.1).2.1 =
      (filter_aaaa_records cfg h res).2.1 := by
  by_cases hres : res.isEmpty
  · have hnil : res = [] := by simpa [List.isEmpty_iff] using hres
    subst hnil
    simp [filter_aaaa_records]
  · have hres' : res.isEmpty = false := by simpa using hres
    have hloop := filter_aaaa_loop_clean res h ho
    have h1 : filter_aaaa_records cfg h res =
        ((res.countP (fun r => r.family == AF_INET6) : Int),
         res.filter (fun r => !(r.family == AF_INET6)),
         ⟨[], h.live + chainAllocs (res.filter (fun r => !(r.family == AF_INET6)))⟩) := by
      simp [filter_aaaa_records, hflag, hres', hloop]
    rw [h1]
    by_cases hre : (res.filter (fun r => !(r.family == AF_INET6))).isEmpty
    · simp [filter_aaaa_records, hre]
    · have hre' : (res.filter (fun r => !(r.family == AF_INET6))).isEmpty = false := by
        simpa using hre
      have hloop2 := filter_aaaa_loop_clean (res.filter (fun r => !(r.family == AF_INET6)))
        (⟨[], h.live + chainAllocs (res.filter (fun r => !(r.family == AF_INET6)))⟩ : Heap) rfl
      simp only [filter_aaaa_records, hflag, hre', Bool.not_true, Bool.false_or,
        if_false, hloop2]
      refine ⟨?_, ?_⟩
      · have hz : (res.filter (fun r => !(r.family == AF_INET6))).countP
            (fun r => r.family == AF_INET6) = 0 := by
          rw [List.countP_eq_zero]
          intro a ha
          have := (List.mem_filter.mp ha).2
          simpa using this
        simp [hz]
      · apply List.filter_eq_self.mpr
        intro a ha
        exact (List.mem_filter.mp ha).2

/-- C9 (witness): idempotence evaluated on `[sampleV4, sampleV6]`. -/
theorem C9_filter_aaaa_idempotent_witness :
    (filter_aaaa_records cfgFilterAAAA
        (filter_aaaa_records cfgFilterAAAA ⟨[], 0⟩ [sampleV4, sampleV6]).2.2
        (filter_aaaa_records cfgFilterAAAA ⟨[], 0⟩ [sampleV4, sampleV6]).2.1).1 = 0 :=
  (C9_filter_aaaa_idempotent cfgFilterAAAA ⟨[], 0⟩ [sampleV4, sampleV6] rfl rfl).1

/-! ### DNS64-stage lemmas -/

/-- The synthesized records a chain yields (with sufficient memory): one per
IPv4 record whose synthesis chain (render, synthesize, re-parse) succeeds. -/
def dns64_synths (cfg : Config) (res : List AddrInfo) : List AddrInfo :=
  res.filterMap fun r =>
    if r.family == AF_INET then (dns64_record cfg ⟨[], 0⟩ r).1 else none

/-- The heap after one synthesis attempt: two allocations stay live exactly
when a record was produced; otherwise everything allocated was freed. -/
theorem dns64_record_live (cfg : Config) (r : AddrInfo) (h : Heap) :
    ((dns64_record cfg h r).2).live =
      h.live + (if ((dns64_record cfg h r).1).isSome then 2 else 0) := by
  rcases hnt : ntop4 r.addr with _ | ip4
  · simp [dns64_record, hnt]
  · rcases hsy : synthesize_dns64_address cfg.dns64Pfx ip4 46 with _ | ip6
    · simp [dns64_record, hnt, hsy]
    · obtain ⟨o, live⟩ := h
      rcases o with _ | ⟨b1, o⟩
      · rcases hp6 : pton6 ip6 with _ | bytes <;>
          simp [dns64_record, hnt, hsy, hp6, Heap.alloc, Heap.free]
      · cases b1
        · rcases o with _ | ⟨b2, o⟩
          · simp [dns64_record, hnt, hsy, Heap.alloc, Heap.free]
          · cases b2 <;> simp [dns64_record, hnt, hsy, Heap.alloc, Heap.free]
        · rcases o with _ | ⟨b2, o⟩
          · rcases hp6 : pton6 ip6 with _ | bytes <;>
              simp [dns64_record, hnt, hsy, hp6, Heap.alloc, Heap.free]
          · cases b2
            · simp [dns64_record, hnt, hsy, Heap.alloc, Heap.free]
            · rcases hp6 : pton6 ip6 with _ | bytes <;>
                simp [dns64_record, hnt, hsy, hp6, Heap.alloc, Heap.free]

/-- On an exhausted oracle a synthesis attempt gives the canonical result. -/
theorem dns64_record_clean (cfg : Config) (r : AddrInfo) (h : Heap) (ho : h.oracle = []) :
    dns64_record cfg h r =
      ((dns64_record cfg ⟨[], 0⟩ r).1,
       ⟨[], h.live + (if ((dns64_record cfg ⟨[], 0⟩ r).1).isSome then 2 else 0)⟩) := by
  obtain ⟨o, live⟩ := h
  subst ho
  rcases hnt : ntop4 r.addr with _ | ip4
  · simp [dns64_record, hnt]
  · rcases hsy : synthesize_dns64_address cfg.dns64Pfx ip4 46 with _ | ip6
    · simp [dns64_record, hnt, hsy]
    · rcases hp6 : pton6 ip6 with _ | bytes <;>
        simp [dns64_record, hnt, hsy, hp6, Heap.alloc, Heap.free]

/-- A produced synthesized record is IPv6 and carries the source record's
port (and socket type and protocol) unchanged. -/
theorem dns64_record_port (cfg : Config) (r : AddrInfo) (s : AddrInfo)
    (e : (dns64_record cfg ⟨[], 0⟩ r).1 = some s) :
    s.port = r.port ∧ s.family = AF_INET6 ∧ s.socktype = r.socktype ∧
      s.protocol = r.protocol := by
  rcases hnt : ntop4 r.addr with _ | ip4
  · simp [dns64_record, hnt] at e
  · rcases hsy : synthesize_dns64_address cfg.dns64Pfx ip4 46 with _ | ip6
    · simp [dns64_record, hnt, hsy] at e
    · rcases hp6 : pton6 ip6 with _ | bytes <;>
        simp [dns64_record, hnt, hsy, hp6, Heap.alloc] at e
      simp [← e]

/-- A synthesis attempt with an exhausted oracle, when nothing is
produced. -/
theorem dns64_record_clean_none (cfg : Config) (r : AddrInfo) (h : Heap)
    (ho : h.oracle = []) (hfst : (dns64_record cfg ⟨[], 0⟩ r).1 = none) :
    dns64_record cfg h r = (none, ⟨[], h.live⟩) := by
  rw [dns64_record_clean cfg r h ho, hfst]
  simp

/-- A synthesis attempt with an exhausted oracle, when a record is
produced. -/
theorem dns64_record_clean_some (cfg : Config) (r s : AddrInfo) (h : Heap)
    (ho : h.oracle = []) (hfst : (dns64_record cfg ⟨[], 0⟩ r).1 = some s) :
    dns64_record cfg h r = (some s, ⟨[], h.live + 2⟩) := by
  rw [dns64_record_clean cfg r h ho, hfst]
  simp

theorem dns64_synths_cons_v4_some (cfg : Config) (r : AddrInfo)
    (rest : List AddrInfo) (s : AddrInfo) (hf : (r.family == AF_INET) = true)
    (hfst : (dns64_record cfg ⟨[], 0⟩ r).1 = some s) :
    dns64_synths cfg (r :: rest) = s :: dns64_synths cfg rest := by
  have hf2 : r.family = AF_INET := by simpa using hf
  simp [dns64_synths, List.filterMap_cons, hf2, hfst]

theorem dns64_synths_cons_v4_none (cfg : Config) (r : AddrInfo)
    (rest : List AddrInfo) (hf : (r.family == AF_INET) = true)
    (hfst : (dns64_record cfg ⟨[], 0⟩ r).1 = none) :
    dns64_synths cfg (r :: rest) = dns64_synths cfg rest := by
  have hf2 : r.family = AF_INET := by simpa using hf
  simp [dns64_synths, List.filterMap_cons, hf2, hfst]

theorem dns64_synths_cons_other (cfg : Config) (r : AddrInfo)
    (rest : List AddrInfo) (hf : (r.family == AF_INET) = false) :
    dns64_synths cfg (r :: rest) = dns64_synths cfg rest := by
  have hf2 : ¬ (r.family = AF_INET) := by simpa using hf
  simp [dns64_synths, List.filterMap_cons, hf2]

/-- On an exhausted oracle the synthesize loop produces `dns64_synths`,
counts them, and keeps exactly their allocations live. -/
theorem add_dns64_loop_clean (cfg : Config) (res : List AddrInfo) :
    ∀ h : Heap, h.oracle = [] →
      add_dns64_loop cfg h res =
        (dns64_synths cfg res, (dns64_synths cfg res).length,
         ⟨[], h.live + 2 * (dns64_synths cfg res).length⟩) := by
  induction res with
  | nil =>
    intro h ho
    obtain ⟨o, live⟩ := h
    subst ho
    simp [add_dns64_loop, dns64_synths]
  | cons r rest ih =>
    intro h ho
    by_cases hf : r.family == AF_INET
    · rcases hfst : (dns64_record cfg ⟨[], 0⟩ r).1 with _ | s
      · rw [add_dns64_loop, if_pos hf]
        simp only [dns64_record_clean_none cfg r h ho hfst]
        rw [ih ⟨[], h.live⟩ rfl, dns64_synths_cons_v4_none cfg r rest hf hfst]
      · rw [add_dns64_loop, if_pos hf]
        simp only [dns64_record_clean_some cfg r s h ho hfst]
        rw [ih ⟨[], h.live + 2⟩ rfl, dns64_synths_cons_v4_some cfg r rest s hf hfst]
        simp [List.length_cons]
        try omega
    · have hf2 : (r.family == AF_INET) = false := by simpa using hf
      rw [add_dns64_loop, if_neg (by simp [hf2]), ih h ho,
        dns64_synths_cons_other cfg r rest hf2]

/-- For every oracle the synthesize loop's live allocations grow by exactly
two per appended record: failed attempts leak nothing. -/
theorem add_dns64_loop_live (cfg : Config) (res : List AddrInfo) :
    ∀ h : Heap, (add_dns64_loop cfg h res).2.2.live =
      h.live + 2 * (add_dns64_loop cfg h res).1.length := by
  induction res with
  | nil => intro h; simp [add_dns64_loop]
  | cons r rest ih =>
    intro h
    by_cases hf : r.family == AF_INET
    · rcases hdr : dns64_record cfg h r with ⟨os, h1⟩
      have hlive := dns64_record_live cfg r h
      rw [hdr] at hlive
      rcases os with _ | s
      · simp only [Option.isSome_none, Bool.false_eq_true, if_false,
          Nat.add_zero] at hlive
        have hih := ih h1
        rw [add_dns64_loop, if_pos hf]
        simp only [hdr]
        rw [hih, hlive]
      · simp only [Option.isSome_some, if_true] at hlive
        rcases hrec : add_dns64_loop cfg h1 rest with ⟨tail, n, h2⟩
        have hih := ih h1
        rw [hrec] at hih
        rw [add_dns64_loop, if_pos hf]
        simp only [hdr, hrec]
        simp at hih ⊢
        omega
    · have hf2 : ¬ ((r.family == AF_INET) = true) := by simpa using hf
      rw [add_dns64_loop, if_neg hf2, ih h]

/-- The count the synthesize loop reports is the number of records it
appended. -/
theorem add_dns64_loop_count (cfg : Config) (res : List AddrInfo) :
    ∀ h : Heap, (add_dns64_loop cfg h res).2.1 = (add_dns64_loop cfg h res).1.length := by
  induction res with
  | nil => intro h; simp [add_dns64_loop]
  | cons r rest ih =>
    intro h
    by_cases hf : r.family == AF_INET
    · rcases hdr : dns64_record cfg h r with ⟨os, h1⟩
      rcases os with _ | s
      · rw [add_dns64_loop, if_pos hf]
        simp only [hdr]
        exact ih h1
      · rcases hrec : add_dns64_loop cfg h1 rest with ⟨tail, n, h2⟩
        have hih := ih h1
        rw [hrec] at hih
        rw [add_dns64_loop, if_pos hf]
        simp only [hdr, hrec]
        simp at hih ⊢
        omega
    · have hf2 : ¬ ((r.family == AF_INET) = true) := by simpa using hf
      rw [add_dns64_loop, if_neg hf2]
      exact ih h

/-- Full characterization of the synthesize stage on an exhausted oracle. -/
theorem add_dns64_addresses_clean (cfg : Config) (h : Heap) (res : List AddrInfo)
    (ho : h.oracle = []) (hdns : cfg.enable_dns64 = true)
    (hne : res.isEmpty = false) :
    add_dns64_addresses cfg h res =
      (((dns64_synths cfg res).length : Int), res ++ dns64_synths cfg res,
       ⟨[], h.live + 2 * (dns64_synths cfg res).length⟩) := by
  simp [add_dns64_addresses, hdns, hne, add_dns64_loop_clean cfg res h ho]

/-- Under the synthesis-success hypothesis there is exactly one synthesized
record per IPv4 record of the chain. -/
theorem dns64_synths_length (cfg : Config) (res : List AddrInfo)
    (hsyn : ∀ r ∈ res, r.family = AF_INET → ((dns64_record cfg ⟨[], 0⟩ r).1).isSome) :
    (dns64_synths cfg res).length = res.countP (fun r => r.family == AF_INET) := by
  induction res with
  | nil => rfl
  | cons r rest ih =>
    have hrest := ih fun x hx hfx => hsyn x (by simp [hx]) hfx
    by_cases hf : r.family == AF_INET
    · have hs := hsyn r (by simp) (by simpa using hf)
      rcases hfst : (dns64_record cfg ⟨[], 0⟩ r).1 with _ | s
      · rw [hfst] at hs
        simp at hs
      · rw [dns64_synths_cons_v4_some cfg r rest s hf hfst]
        simp [List.countP_cons, hf, hrest]
    · have hf2 : (r.family == AF_INET) = false := by simpa using hf
      rw [dns64_synths_cons_other cfg r rest hf2]
      simp [List.countP_cons, hf2, hrest]

/-- The oracle is untouched by the nameserver-install loop when it is
already exhausted. -/
theorem install_oracle_nil (rs : ResState) (nsLive i4 i6 : Nat) :
    ∀ servers, (install_nameservers rs [] nsLive i4 i6 servers).2.1 = [] := by
  intro servers
  induction servers generalizing rs nsLive i4 i6 with
  | nil => rfl
  | cons s rest ih =>
    rw [install_nameservers]
    by_cases h1 : ¬ (i4 < MAXNS ∨ i6 < MAXNS)
    · simp [h1]
    · by_cases h2 : s.family = AF_INET ∧ i4 < MAXNS
      · by_cases h3 : (pton4 s.addr).isSome <;>
          simp [h1, h2, h3, ih, AF_INET, AF_INET6]
      · by_cases h4 : s.family = AF_INET6 ∧ i6 < MAXNS
        · by_cases h5 : (pton6 s.addr).isSome <;>
            simp [h1, h2, h4, h5, ih, AF_INET, AF_INET6]
        · simp only [AF_INET, AF_INET6] at h2 h4 ⊢
          simp [h1, h2, h4, ih]


/-! ### Wrapper-level helper lemmas -/

/-- The overridden `getaddrinfo` restores the saved ambient state on every
path (shared helper). -/
theorem gai_resState (cfg : Config) (r0 rInit : ResState) (node : Bool)
    (providerRet : Int) (chain : List AddrInfo) (oracle : List Bool) :
    (getaddrinfo_model cfg r0 rInit node providerRet chain oracle).resState = r0 := by
  simp only [getaddrinfo_model]
  split <;> rfl

/-- On a successful provider call with a hostname and non-NULL chain, the
wrapper's return code and result chain are those of the pipeline. -/
theorem gai_run (cfg : Config) (r0 rInit : ResState) (chain : List AddrInfo)
    (oracle : List Bool) (hne : chain.isEmpty = false) :
    (getaddrinfo_model cfg r0 rInit true 0 chain oracle).ret =
      (if (run_pipeline cfg
          ⟨(install_nameservers { rInit with nscount := 0, nscount6 := 0 }
              oracle 0 0 0 cfg.servers).2.1, 0⟩ chain).1 < 0
       then EAI_MEMORY else 0) ∧
    (getaddrinfo_model cfg r0 rInit true 0 chain oracle).res =
      (run_pipeline cfg
        ⟨(install_nameservers { rInit with nscount := 0, nscount6 := 0 }
            oracle 0 0 0 cfg.servers).2.1, 0⟩ chain).2 := by
  constructor <;> simp [getaddrinfo_model, hne]

/-- A NULL provider chain skips the pipeline. -/
theorem gai_empty_chain (cfg : Config) (r0 rInit : ResState) (oracle : List Bool) :
    (getaddrinfo_model cfg r0 rInit true 0 [] oracle).ret = 0 ∧
    (getaddrinfo_model cfg r0 rInit true 0 [] oracle).res = [] := by
  constructor <;> simp [getaddrinfo_model]

/-! ### Clean-run characterizations of the filter stages -/

/-- The drop-AAAA stage on an exhausted oracle, nonempty chain, flag on. -/
theorem filter_aaaa_records_clean (cfg : Config) (h : Heap) (res : List AddrInfo)
    (hflag : cfg.filter_aaaa = true) (ho : h.oracle = [])
    (hne : res.isEmpty = false) :
    filter_aaaa_records cfg h res =
      ((res.countP (fun r => r.family == AF_INET6) : Int),
       res.filter (fun r => !(r.family == AF_INET6)),
       ⟨[], h.live + chainAllocs (res.filter (fun r => !(r.family == AF_INET6)))⟩) := by
  simp [filter_aaaa_records, hflag, hne, filter_aaaa_loop_clean res h ho]

/-- The drop-A stage on an exhausted oracle, nonempty chain, flag on. -/
theorem filter_a_records_clean (cfg : Config) (h : Heap) (res : List AddrInfo)
    (hflag : cfg.filter_a = true) (ho : h.oracle = [])
    (hne : res.isEmpty = false) :
    filter_a_records cfg h res =
      ((res.countP (fun r => r.family == AF_INET) : Int),
       res.filter (fun r => !(r.family == AF_INET)),
       ⟨[], h.live + chainAllocs (res.filter (fun r => !(r.family == AF_INET)))⟩) := by
  simp [filter_a_records, hflag, hne, filter_a_loop_clean res h ho]

/-- Drop-A analogue of `filter_family_eq`: keeping non-IPv4 records keeps
the IPv6 records, under the §3 data model. -/
theorem filter_family_eq_a (res : List AddrInfo)
    (hwf : ∀ r ∈ res, r.family = AF_INET ∨ r.family = AF_INET6) :
    res.filter (fun r => !(r.family == AF_INET)) =
      res.filter (fun r => r.family == AF_INET6) := by
  induction res with
  | nil => rfl
  | cons r rest ih =>
    have hr := hwf r (by simp)
    have hrest := ih fun x hx => hwf x (by simp [hx])
    simp only [AF_INET, AF_INET6] at hr hrest ⊢
    rcases hr with hfam | hfam <;> simp [List.filter_cons, hfam, hrest]

/-- Every synthesized record is IPv6-family. -/
theorem dns64_synths_all_v6 (cfg : Config) (res : List AddrInfo) :
    ∀ s ∈ dns64_synths cfg res, s.family = AF_INET6 := by
  intro s hs
  rw [dns64_synths, List.mem_filterMap] at hs
  obtain ⟨r, _, hr⟩ := hs
  by_cases hf : r.family == AF_INET
  · rw [if_pos hf] at hr
    exact (dns64_record_port cfg r s hr).2.1
  · rw [if_neg hf] at hr
    exact absurd hr (by simp)

/-! ### Pipeline characterizations under specific flag settings -/

/-- Pipeline with only DNS64 enabled: the chain is kept and the synthesized
records are appended. -/
theorem run_pipeline_dns64_only (cfg : Config) (chain : List AddrInfo)
    (hdns : cfg.enable_dns64 = true) (hfa : cfg.filter_aaaa = false)
    (hfA : cfg.filter_a = false) (hne : chain.isEmpty = false) :
    run_pipeline cfg ⟨[], 0⟩ chain = (0, chain ++ dns64_synths cfg chain) := by
  have hadd := add_dns64_addresses_clean cfg ⟨[], 0⟩ chain rfl hdns hne
  have hnlt : ¬ (((dns64_synths cfg chain).length : Int) < 0) :=
    Int.not_lt.mpr (Int.natCast_nonneg _)
  simp only [run_pipeline, hfa, Bool.false_eq_true, if_false, hdns, hne, hadd]
  simp [hnlt, hne, hfA]

/-- Pipeline with DNS64 and drop-A enabled, drop-AAAA disabled: only the
originally-IPv6 records and the synthesized records survive, in order. -/
theorem run_pipeline_dns64_filter_a (cfg : Config) (chain : List AddrInfo)
    (hdns : cfg.enable_dns64 = true) (hfa : cfg.filter_aaaa = false)
    (hfA : cfg.filter_a = true)
    (hwf : ∀ r ∈ chain, r.family = AF_INET ∨ r.family = AF_INET6)
    (hne : chain.isEmpty = false) :
    run_pipeline cfg ⟨[], 0⟩ chain =
      (0, chain.filter (fun r => r.family == AF_INET6) ++ dns64_synths cfg chain) := by
  have hadd := add_dns64_addresses_clean cfg ⟨[], 0⟩ chain rfl hdns hne
  have hne2 : (chain ++ dns64_synths cfg chain).isEmpty = false := by
    rcases chain with _ | ⟨c, cs⟩
    · simp at hne
    · simp
  have hfac := filter_a_records_clean cfg ⟨[], 2 * (dns64_synths cfg chain).length⟩
    (chain ++ dns64_synths cfg chain) hfA rfl hne2
  have hsplit : (chain ++ dns64_synths cfg chain).filter (fun r => !(r.family == AF_INET)) =
      chain.filter (fun r => r.family == AF_INET6) ++ dns64_synths cfg chain := by
    rw [List.filter_append, filter_family_eq_a chain hwf]
    congr 1
    apply List.filter_eq_self.mpr
    intro s hs
    have := dns64_synths_all_v6 cfg chain s hs
    simp [this, AF_INET6, AF_INET]
  have hnlt : ¬ (((dns64_synths cfg chain).length : Int) < 0) :=
    Int.not_lt.mpr (Int.natCast_nonneg _)
  have hnlt2 : ¬ (((chain ++ dns64_synths cfg chain).countP
      (fun r => r.family == AF_INET) : Int) < 0) :=
    Int.not_lt.mpr (Int.natCast_nonneg _)
  simp only [run_pipeline, hfa, Bool.false_eq_true, if_false, hdns, hne, hadd, hfac]
  simp [hfA, hne2, hfac, hnlt, hnlt2, hne, hsplit]
  intro hcontra
  exfalso
  omega

/-- Pipeline with both filters enabled and DNS64 disabled on an IPv4/IPv6
chain: everything is removed, with return code 0. -/
theorem run_pipeline_both_filters (cfg : Config) (chain : List AddrInfo)
    (hfa : cfg.filter_aaaa = true) (hfA : cfg.filter_a = true)
    (hdns : cfg.enable_dns64 = false)
    (hwf : ∀ r ∈ chain, r.family = AF_INET ∨ r.family = AF_INET6)
    (hne : chain.isEmpty = false) :
    run_pipeline cfg ⟨[], 0⟩ chain = (0, []) := by
  have hfaaaa := filter_aaaa_records_clean cfg ⟨[], 0⟩ chain hfa rfl hne
  have hnlt : ¬ ((chain.countP (fun r => r.family == AF_INET6) : Int) < 0) :=
    Int.not_lt.mpr (Int.natCast_nonneg _)
  have hres1 := filter_family_eq chain hwf
  by_cases hre : (chain.filter (fun r => !(r.family == AF_INET6))).isEmpty
  · simp only [run_pipeline, hfa, if_true, hfaaaa]
    simp [hnlt, hdns, hre, List.isEmpty_iff.mp hre]
  · have hre' : (chain.filter (fun r => !(r.family == AF_INET6))).isEmpty = false := by
      simpa using hre
    have hzero : (chain.filter (fun r => !(r.family == AF_INET6))).filter
        (fun r => !(r.family == AF_INET)) = [] := by
      rw [hres1]
      apply List.filter_eq_nil_iff.mpr
      intro a ha
      have := (List.mem_filter.mp ha).2
      simp at this ⊢
      simp [this]
    have hfac := filter_a_records_clean cfg
      ⟨[], chainAllocs (chain.filter (fun r => !(r.family == AF_INET6)))⟩
      (chain.filter (fun r => !(r.family == AF_INET6))) hfA rfl hre'
    have hnlt2 : ¬ (((chain.filter (fun r => !(r.family == AF_INET6))).countP
        (fun r => r.family == AF_INET) : Int) < 0) :=
      Int.not_lt.mpr (Int.natCast_nonneg _)
    simp only [run_pipeline, hfa, if_true, hfaaaa]
    simp only [hdns, Bool.false_eq_true, false_and, if_false]
    simp [hfA, hnlt, hnlt2, hre', hzero, hfac]

/-! ### Claim C3 — synthesize stage appends, originals retained -/

/-- C3: with DNS64 enabled and both filters disabled, a successful
resolution keeps all original records in place and order and appends the
synthesized IPv6 records at the tail, one per IPv4 record of the input (for
records whose synthesis succeeds — the hypothesis `hsyn`; synthesis can
only fail on an unparseable configured prefix or allocation failure), in
the order of their source records, each carrying its source record's port
unchanged. -/
theorem C3_dns64_append (cfg : Config) (r0 rInit : ResState) (chain : List AddrInfo)
    (hdns : cfg.enable_dns64 = true) (hfa : cfg.filter_aaaa = false)
    (hfA : cfg.filter_a = false)
    (hsyn : ∀ r ∈ chain, r.family = AF_INET → ((dns64_record cfg ⟨[], 0⟩ r).1).isSome) :
    (getaddrinfo_model cfg r0 rInit true 0 chain []).ret = 0 ∧
    (getaddrinfo_model cfg r0 rInit true 0 chain []).res =
      chain ++ dns64_synths cfg chain ∧
    (dns64_synths cfg chain).length = chain.countP (fun r => r.family == AF_INET) ∧
    ∀ r s : AddrInfo, (dns64_record cfg ⟨[], 0⟩ r).1 = some s →
      s.port = r.port ∧ s.family = AF_INET6 := by
  refine ⟨?_, ?_, dns64_synths_length cfg chain hsyn,
    fun r s e => ⟨(dns64_record_port cfg r s e).1, (dns64_record_port cfg r s e).2.1⟩⟩
  all_goals by_cases hchain : chain.isEmpty
  case pos =>
    rw [List.isEmpty_iff.mp hchain]
    exact (gai_empty_chain cfg r0 rInit []).1
  case neg =>
    have hchain' : chain.isEmpty = false := by simpa using hchain
    have horacle := install_oracle_nil { rInit with nscount := 0, nscount6 := 0 }
      0 0 0 cfg.servers
    rw [(gai_run cfg r0 rInit chain [] hchain').1, horacle,
      run_pipeline_dns64_only cfg chain hdns hfa hfA hchain']
    simp
  case pos =>
    rw [List.isEmpty_iff.mp hchain]
    rw [(gai_empty_chain cfg r0 rInit []).2]
    simp [dns64_synths]
  case neg =>
    have hchain' : chain.isEmpty = false := by simpa using hchain
    have horacle := install_oracle_nil { rInit with nscount := 0, nscount6 := 0 }
      0 0 0 cfg.servers
    rw [(gai_run cfg r0 rInit chain [] hchain').2, horacle,
      run_pipeline_dns64_only cfg chain hdns hfa hfA hchain']

/-- C3 (witness): `[sampleV4]` with the default prefix yields the original
record followed by the synthesized `64:ff9b::102:304` record with port 80. -/
theorem C3_dns64_append_witness :
    (getaddrinfo_model cfgDns64 resAmbient resInitState true 0 [sampleV4] []).res =
      [sampleV4,
       ⟨AF_INET6, 1, 6, [0, 100, 255, 155, 0, 0, 0, 0, 0, 0, 0, 0, 1, 2, 3, 4], 80, none⟩] := by
  have h := C3_dns64_append cfgDns64 resAmbient resInitState [sampleV4]
    rfl rfl rfl (by decide)
  rw [h.2.1]
  decide

/-! ### Claim C5 — allocation failure in the pipeline stages -/

/-- C5 (counterexample): with DNS64 enabled and filters off, an allocation
failure inside the synthesize stage (oracle `[false]` fails the stage's
first `malloc`) does not make the call report `EAI_MEMORY`: the call
returns 0 and silently drops the synthesized record (with a clean heap the
same call appends it). -/
theorem C5_dns64_swallow_cex :
    (getaddrinfo_model cfgDns64 resAmbient resInitState true 0 [sampleV4] [false]).ret = 0 ∧
    (getaddrinfo_model cfgDns64 resAmbient resInitState true 0 [sampleV4] [false]).res =
      [sampleV4] ∧
    (getaddrinfo_model cfgDns64 resAmbient resInitState true 0 [sampleV4] []).res ≠
      [sampleV4] ∧
    EAI_MEMORY ≠ (0 : Int) := by
  decide

/-- C5 (amended): the two filter stages are atomic — on an allocation
failure partway through rebuilding, every record the stage allocated is
released, the input chain is left in place, and the resolution call reports
`EAI_MEMORY` with the ambient resolver state restored.  The synthesize
stage, by contrast, releases the failed record's partial allocations but
skips the record and continues: it never propagates an error (its return
count is the number of appended records) and never leaks. -/
theorem C5_alloc_failure_spec :
    (∀ (cfg : Config) (h : Heap) (res : List AddrInfo),
      (filter_aaaa_records cfg h res).1 < 0 →
        (filter_aaaa_records cfg h res).2.2.live = h.live ∧
        (filter_aaaa_records cfg h res).2.1 = res) ∧
    (∀ (cfg : Config) (h : Heap) (res : List AddrInfo),
      (filter_a_records cfg h res).1 < 0 →
        (filter_a_records cfg h res).2.2.live = h.live ∧
        (filter_a_records cfg h res).2.1 = res) ∧
    (∀ (cfg : Config) (r0 rInit : ResState) (chain : List AddrInfo) (oracle : List Bool),
      cfg.filter_aaaa = true → chain.isEmpty = false →
      (filter_aaaa_records cfg
        ⟨(install_nameservers { rInit with nscount := 0, nscount6 := 0 }
            oracle 0 0 0 cfg.servers).2.1, 0⟩ chain).1 < 0 →
      (getaddrinfo_model cfg r0 rInit true 0 chain oracle).ret = EAI_MEMORY ∧
      (getaddrinfo_model cfg r0 rInit true 0 chain oracle).resState = r0) ∧
    (∀ (cfg : Config) (r0 rInit : ResState) (chain : List AddrInfo) (oracle : List Bool),
      cfg.filter_aaaa = false → cfg.enable_dns64 = false → cfg.filter_a = true →
      chain.isEmpty = false →
      (filter_a_records cfg
        ⟨(install_nameservers { rInit with nscount := 0, nscount6 := 0 }
            oracle 0 0 0 cfg.servers).2.1, 0⟩ chain).1 < 0 →
      (getaddrinfo_model cfg r0 rInit true 0 chain oracle).ret = EAI_MEMORY ∧
      (getaddrinfo_model cfg r0 rInit true 0 chain oracle).resState = r0) ∧
    (∀ (cfg : Config) (h : Heap) (res : List AddrInfo),
      ∃ n : Nat, (add_dns64_addresses cfg h res).1 = (n : Int) ∧
        (add_dns64_addresses cfg h res).2.1.length = res.length + n ∧
        (add_dns64_addresses cfg h res).2.2.live = h.live + 2 * n) := by
  refine ⟨?_, ?_, ?_, ?_, ?_⟩
  · intro cfg h res hlt
    by_cases hg : (!cfg.filter_aaaa || res.isEmpty) = true
    · rw [filter_aaaa_records, if_pos hg] at hlt
      simp at hlt
    · rw [filter_aaaa_records, if_neg hg] at hlt ⊢
      rcases hloop : filter_aaaa_loop h res with h1 | ⟨newRes, removed, h1⟩ <;>
        simp only [hloop] at hlt ⊢
      · exact ⟨filter_aaaa_loop_error hloop, trivial⟩
      · exact absurd hlt (Int.not_lt.mpr (Int.natCast_nonneg _))
  · intro cfg h res hlt
    by_cases hg : (!cfg.filter_a || res.isEmpty) = true
    · rw [filter_a_records, if_pos hg] at hlt
      simp at hlt
    · rw [filter_a_records, if_neg hg] at hlt ⊢
      rcases hloop : filter_a_loop h res with h1 | ⟨newRes, removed, h1⟩ <;>
        simp only [hloop] at hlt ⊢
      · exact ⟨filter_a_loop_error hloop, trivial⟩
      · exact absurd hlt (Int.not_lt.mpr (Int.natCast_nonneg _))
  · intro cfg r0 rInit chain oracle hfa hne hlt
    refine ⟨?_, gai_resState cfg r0 rInit true 0 chain oracle⟩
    rw [(gai_run cfg r0 rInit chain oracle hne).1]
    have hpl : (run_pipeline cfg
        ⟨(install_nameservers { rInit with nscount := 0, nscount6 := 0 }
            oracle 0 0 0 cfg.servers).2.1, 0⟩ chain).1 = EAI_MEMORY := by
      simp only [run_pipeline, hfa, if_true]
      simp [hlt]
    rw [hpl]
    simp [EAI_MEMORY]
  · intro cfg r0 rInit chain oracle hfa hdns hfA hne hlt
    refine ⟨?_, gai_resState cfg r0 rInit true 0 chain oracle⟩
    rw [(gai_run cfg r0 rInit chain oracle hne).1]
    have hpl : (run_pipeline cfg
        ⟨(install_nameservers { rInit with nscount := 0, nscount6 := 0 }
            oracle 0 0 0 cfg.servers).2.1, 0⟩ chain).1 = EAI_MEMORY := by
      simp only [run_pipeline, hfa, Bool.false_eq_true, if_false]
      simp only [hdns, Bool.false_eq_true, false_and, if_false]
      simp [hlt, hfA, hne]
    rw [hpl]
    simp [EAI_MEMORY]
  · intro cfg h res
    by_cases hg : (!cfg.enable_dns64 || res.isEmpty) = true
    · refine ⟨0, ?_⟩
      rw [add_dns64_addresses, if_pos hg]
      simp
    · rcases hloop : add_dns64_loop cfg h res with ⟨synths, n, h1⟩
      have hcount := add_dns64_loop_count cfg res h
      have hlive := add_dns64_loop_live cfg res h
      rw [hloop] at hcount hlive
      refine ⟨synths.length, ?_⟩
      rw [add_dns64_addresses, if_neg hg]
      simp only [hloop]
      simp at hcount hlive ⊢
      omega

/-! ### Claim C4 — filterA + dns64 pipeline -/

/-- C4: with `filterA` and `dns64` enabled and `filterAAAA` disabled, the
output chain is exactly the originally-IPv6 records followed by the
synthesized IPv6 records, in order, with no IPv4-family record left; and
the output is literally drop-A applied after synthesize applied after
drop-AAAA, in that fixed order. -/
theorem C4_pipeline_filter_a_dns64 (cfg : Config) (r0 rInit : ResState)
    (chain : List AddrInfo)
    (hdns : cfg.enable_dns64 = true) (hfa : cfg.filter_aaaa = false)
    (hfA : cfg.filter_a = true)
    (hwf : ∀ r ∈ chain, r.family = AF_INET ∨ r.family = AF_INET6)
    (hsyn : ∀ r ∈ chain, r.family = AF_INET → ((dns64_record cfg ⟨[], 0⟩ r).1).isSome) :
    (getaddrinfo_model cfg r0 rInit true 0 chain []).ret = 0 ∧
    (getaddrinfo_model cfg r0 rInit true 0 chain []).res =
      chain.filter (fun r => r.family == AF_INET6) ++ dns64_synths cfg chain ∧
    (∀ r ∈ (getaddrinfo_model cfg r0 rInit true 0 chain []).res,
      r.family = AF_INET6) ∧
    (getaddrinfo_model cfg r0 rInit true 0 chain []).res =
      (filter_a_records cfg ⟨[], 0⟩
        ((add_dns64_addresses cfg ⟨[], 0⟩
          ((filter_aaaa_records cfg ⟨[], 0⟩ chain).2.1)).2.1)).2.1 := by
  by_cases hchain : chain.isEmpty
  · have hnil : chain = [] := List.isEmpty_iff.mp hchain
    subst hnil
    refine ⟨(gai_empty_chain cfg r0 rInit []).1, ?_, ?_, ?_⟩ <;>
      simp [(gai_empty_chain cfg r0 rInit []).2, dns64_synths, filter_aaaa_records,
        add_dns64_addresses, filter_a_records]
  · have hchain' : chain.isEmpty = false := by simpa using hchain
    have horacle := install_oracle_nil { rInit with nscount := 0, nscount6 := 0 }
      0 0 0 cfg.servers
    have hpl := run_pipeline_dns64_filter_a cfg chain hdns hfa hfA hwf hchain'
    have hgai : (getaddrinfo_model cfg r0 rInit true 0 chain []).res =
        chain.filter (fun r => r.family == AF_INET6) ++ dns64_synths cfg chain := by
      rw [(gai_run cfg r0 rInit chain [] hchain').2, horacle, hpl]
    refine ⟨?_, hgai, ?_, ?_⟩
    · rw [(gai_run cfg r0 rInit chain [] hchain').1, horacle, hpl]
      simp
    · intro r hr
      rw [hgai] at hr
      rcases List.mem_append.mp hr with hmem | hmem
      · have := (List.mem_filter.mp hmem).2
        simpa using this
      · exact dns64_synths_all_v6 cfg chain r hmem
    · rw [hgai]
      have hst1 : (filter_aaaa_records cfg ⟨[], 0⟩ chain).2.1 = chain := by
        simp [filter_aaaa_records, hfa]
      rw [hst1]
      have hne2 : (chain ++ dns64_synths cfg chain).isEmpty = false := by
        rcases chain with _ | ⟨c, cs⟩
        · simp at hchain'
        · simp
      have hsplit : (chain ++ dns64_synths cfg chain).filter
          (fun r => !(r.family == AF_INET)) =
          chain.filter (fun r => r.family == AF_INET6) ++ dns64_synths cfg chain := by
        rw [List.filter_append, filter_family_eq_a chain hwf]
        congr 1
        apply List.filter_eq_self.mpr
        intro s hs
        have := dns64_synths_all_v6 cfg chain s hs
        simp [this, AF_INET6, AF_INET]
      have hadd21 : (add_dns64_addresses cfg ⟨[], 0⟩ chain).2.1 =
          chain ++ dns64_synths cfg chain := by
        rw [add_dns64_addresses_clean cfg ⟨[], 0⟩ chain rfl hdns hchain']
      rw [hadd21]
      have hfc21 : (filter_a_records cfg ⟨[], 0⟩ (chain ++ dns64_synths cfg chain)).2.1 =
          (chain ++ dns64_synths cfg chain).filter (fun r => !(r.family == AF_INET)) := by
        rw [filter_a_records_clean cfg ⟨[], 0⟩ (chain ++ dns64_synths cfg chain) hfA rfl hne2]
      rw [hfc21, hsplit]

/-- C4 (witness): chain `[sampleV4, sampleV6]` yields
`[sampleV6, 64:ff9b::102:304]`. -/
theorem C4_pipeline_filter_a_dns64_witness :
    (getaddrinfo_model { defaultConfig with enable_dns64 := true, filter_a := true }
      resAmbient resInitState true 0 [sampleV4, sampleV6] []).res =
      [sampleV6,
       ⟨AF_INET6, 1, 6, [0, 100, 255, 155, 0, 0, 0, 0, 0, 0, 0, 0, 1, 2, 3, 4], 80, none⟩] := by
  have h := C4_pipeline_filter_a_dns64
    { defaultConfig with enable_dns64 := true, filter_a := true }
    resAmbient resInitState [sampleV4, sampleV6] rfl rfl rfl (by decide) (by decide)
  rw [h.2.1]
  decide

/-! ### Claim C10 — both filters, no dns64: success with empty chain -/

/-- C10: with `filterAAAA` and `filterA` both enabled and `dns64` disabled,
a successful resolution whose chain holds only IPv4/IPv6 records returns
code 0 with a NULL (empty) result chain — success with zero addresses, not
an error. -/
theorem C10_both_filters_empty (cfg : Config) (r0 rInit : ResState)
    (chain : List AddrInfo)
    (hfa : cfg.filter_aaaa = true) (hfA : cfg.filter_a = true)
    (hdns : cfg.enable_dns64 = false)
    (hwf : ∀ r ∈ chain, r.family = AF_INET ∨ r.family = AF_INET6) :
    (getaddrinfo_model cfg r0 rInit true 0 chain []).ret = 0 ∧
    (getaddrinfo_model cfg r0 rInit true 0 chain []).res = [] := by
  by_cases hchain : chain.isEmpty
  · rw [List.isEmpty_iff.mp hchain]
    exact gai_empty_chain cfg r0 rInit []
  · have hchain' : chain.isEmpty = false := by simpa using hchain
    have horacle := install_oracle_nil { rInit with nscount := 0, nscount6 := 0 }
      0 0 0 cfg.servers
    have hpl := run_pipeline_both_filters cfg chain hfa hfA hdns hwf hchain'
    constructor
    · rw [(gai_run cfg r0 rInit chain [] hchain').1, horacle, hpl]
      simp
    · rw [(gai_run cfg r0 rInit chain [] hchain').2, horacle, hpl]

/-- C10 (witness): the scenario chain `[sampleV4, sampleV6]`. -/
theorem C10_both_filters_empty_witness :
    (getaddrinfo_model { defaultConfig with filter_aaaa := true, filter_a := true }
      resAmbient resInitState true 0 [sampleV4, sampleV6] []).ret = 0 ∧
    (getaddrinfo_model { defaultConfig with filter_aaaa := true, filter_a := true }
      resAmbient resInitState true 0 [sampleV4, sampleV6] []).res = [] :=
  C10_both_filters_empty { defaultConfig with filter_aaaa := true, filter_a := true }
    resAmbient resInitState [sampleV4, sampleV6] rfl rfl rfl (by decide)

/-! ### Claim C8 — ambient state restored, descriptors freed -/

/-- After the install loop the live descriptor count equals the installed
IPv6 nameserver count, given that it did on entry. -/
theorem install_nsLive (servers : List ServerEntry) :
    ∀ (rs : ResState) (oracle : List Bool) (nsLive i4 i6 : Nat),
      nsLive = rs.nscount6 →
      (install_nameservers rs oracle nsLive i4 i6 servers).2.2 =
        (install_nameservers rs oracle nsLive i4 i6 servers).1.nscount6 := by
  induction servers with
  | nil => intro rs oracle nsLive i4 i6 hinv; simpa [install_nameservers] using hinv
  | cons s rest ih =>
    intro rs oracle nsLive i4 i6 hinv
    rw [install_nameservers]
    by_cases h1 : ¬ (i4 < MAXNS ∨ i6 < MAXNS)
    · rw [if_pos h1]
      exact hinv
    · rw [if_neg h1]
      by_cases h2 : s.family = AF_INET ∧ i4 < MAXNS
      · rw [if_pos h2]
        by_cases h3 : (pton4 s.addr).isSome = true
        · rw [if_pos h3]
          exact ih _ _ _ _ _ (by simpa using hinv)
        · rw [if_neg h3]
          exact ih _ _ _ _ _ hinv
      · rw [if_neg h2]
        by_cases h4 : s.family = AF_INET6 ∧ i6 < MAXNS
        · rw [if_pos h4]
          by_cases hok : (oracle.head?.getD true) = true
          · rw [if_pos hok]
            by_cases h5 : (pton6 s.addr).isSome = true
            · rw [if_pos h5]
              exact ih _ _ _ _ _ (by simp [hinv])
            · rw [if_neg h5]
              exact ih _ _ _ _ _ hinv
          · rw [if_neg hok]
            exact ih _ _ _ _ _ hinv
        · rw [if_neg h4]
          exact ih _ _ _ _ _ hinv

/-- C8: on every exit path of the overridden `getaddrinfo` — provider
success, provider failure, and pipeline errors — the saved ambient resolver
configuration is restored and every per-call allocated IPv6 nameserver
descriptor has been released before returning. -/
theorem C8_ambient_restored (cfg : Config) (r0 rInit : ResState) (node : Bool)
    (providerRet : Int) (chain : List AddrInfo) (oracle : List Bool) :
    (getaddrinfo_model cfg r0 rInit node providerRet chain oracle).resState = r0 ∧
    (getaddrinfo_model cfg r0 rInit node providerRet chain oracle).nsLive = 0 := by
  have hinv := install_nsLive cfg.servers { rInit with nscount := 0, nscount6 := 0 }
    oracle 0 0 0 rfl
  refine ⟨gai_resState cfg r0 rInit node providerRet chain oracle, ?_⟩
  simp only [getaddrinfo_model]
  split
  all_goals simp only []
  all_goals rw [hinv]
  all_goals exact Nat.sub_self _

/-! ### Claim C2 — DNS64 address synthesis -/

theorem decParseOctet_le {s : List Char} {v : Nat}
    (e : decParseOctet s = some v) : v ≤ 255 := by
  unfold decParseOctet at e
  split_ifs at e with h1 h2 h3 h4 <;> simp_all

/-- Every octet produced by the IPv4 parser is at most 255. -/
theorem parseOctets_le :
    ∀ (parts : List (List Char)) (l : List Nat),
      parseOctets parts = some l → ∀ v ∈ l, v ≤ 255 := by
  intro parts
  induction parts with
  | nil =>
    intro l e v hv
    simp [parseOctets] at e
    subst e
    simp at hv
  | cons p rest ih =>
    intro l e v hv
    rw [parseOctets] at e
    rcases hp : decParseOctet p with _ | w <;> rw [hp] at e
    · simp at e
    · rcases hrest : parseOctets rest with _ | l2 <;> rw [hrest] at e
      · simp at e
      · simp at e
        subst e
        rcases List.mem_cons.mp hv with rfl | hv2
        · exact decParseOctet_le hp
        · exact ih l2 hrest v hv2

theorem pton4_bytes_le {s : List Char} {a b c d : Nat}
    (e : pton4 s = some [a, b, c, d]) :
    a ≤ 255 ∧ b ≤ 255 ∧ c ≤ 255 ∧ d ≤ 255 := by
  unfold pton4 at e
  rcases hm : parseOctets (splitOnC '.' s) with _ | l <;> rw [hm] at e
  · simp at e
  · have hall := parseOctets_le _ _ hm
    rcases l with _ | ⟨x1, _ | ⟨x2, _ | ⟨x3, _ | ⟨x4, _ | _⟩⟩⟩⟩ <;> simp at e
    obtain ⟨rfl, rfl, rfl, rfl⟩ := e
    exact ⟨hall _ (by simp), hall _ (by simp), hall _ (by simp), hall _ (by simp)⟩

/-- `%x` of a value below `16 ^ k` takes at most `k` digits. -/
theorem hexRenderAux_length :
    ∀ (fuel n k : Nat), n < fuel → n < 16 ^ k → 0 < k →
      (hexRenderAux fuel n).length ≤ k := by
  intro fuel
  induction fuel with
  | zero => intro n k h; omega
  | succ fuel ih =>
    intro n k hfuel hlt hk
    rw [hexRenderAux]
    by_cases h16 : n < 16
    · simp [h16]
      exact hk
    · rw [if_neg h16]
      rcases k with _ | _ | k
      · omega
      · exfalso
        simp at hlt
        omega
      · have hf : n / 16 < fuel := by omega
        have hb : n / 16 < 16 ^ (k + 1) := by
          rw [Nat.div_lt_iff_lt_mul (by omega)]
          calc n < 16 ^ (k + 2) := hlt
          _ = 16 ^ (k + 1) * 16 := by ring
        have := ih (n / 16) (k + 1) hf hb (by omega)
        simp [List.length_append]
        omega

/-- `%x` of a 16-bit value takes at most 4 digits. -/
theorem hexRender_length_le {n : Nat} (h : n < 65536) :
    (hexRender n).length ≤ 4 := by
  have h16 : n < 16 ^ 4 := by norm_num; omega
  exact hexRenderAux_length (n + 1) n 4 (by omega) h16 (by omega)

/-- C2 (counterexample): the C code truncates the prefix at the *first*
`"::"`, not only a trailing one: with prefix `64::ff9b` (no trailing
`"::"`) it produces `64::808:808`, not the claim's
`64::ff9b` + `::808:808`. -/
theorem C2_interior_dc_cex :
    synthesize_dns64_address ("64::ff9b".data) ("8.8.8.8".data) 46 =
      some ("64::808:808".data) ∧
    ("64::808:808".data : List Char) ≠
      ("64::ff9b".data ++ ':' :: ':' :: "808:808".data) := by
  decide

/-- C2 (amended): for every valid IPv4 string with bytes `a.b.c.d` and
every prefix whose truncation at its first `"::"` (this strips a trailing
`"::"`, but also cuts an interior one) is at most 34 characters long (so
the `snprintf` into the 46-byte buffer does not truncate — true of every
real IPv6 prefix), the synthesized string is that truncated prefix
followed by `::`, the upper 16 bits `a*256+b` and the lower 16 bits
`c*256+d` of the 32-bit big-endian address value, in lowercase unpadded
hex separated by `:`.  An invalid IPv4 string is rejected.  The spec's
example `synthesize("8.8.8.8", "64:ff9b::") = "64:ff9b::808:808"` holds. -/
theorem C2_synthesize_spec :
    (∀ (pfx ip4 : List Char) (a b c d : Nat),
      pton4 ip4 = some [a, b, c, d] →
      (truncAtDC (pfx.take 45)).length ≤ 34 →
      synthesize_dns64_address pfx ip4 46 =
        some (truncAtDC (pfx.take 45) ++ ':' :: ':' ::
          (hexRender (a * 256 + b) ++ ':' :: hexRender (c * 256 + d)))) ∧
    (∀ pfx ip4 : List Char, pton4 ip4 = none →
      synthesize_dns64_address pfx ip4 46 = none) ∧
    synthesize_dns64_address ("64:ff9b::".data) ("8.8.8.8".data) 46 =
      some ("64:ff9b::808:808".data) := by
  refine ⟨?_, ?_, by decide⟩
  · intro pfx ip4 a b c d hp hlen
    obtain ⟨ha, hb, hc, hd⟩ := pton4_bytes_le hp
    unfold synthesize_dns64_address
    rw [hp]
    simp only [List.foldl]
    have hv : ((((0 * 256 + a) * 256 + b) * 256 + c) * 256 + d) =
        (a * 256 + b) * 65536 + (c * 256 + d) := by ring
    rw [hv]
    have hhi : (((a * 256 + b) * 65536 + (c * 256 + d)) >>> 16) &&& 0xFFFF =
        a * 256 + b := by
      rw [Nat.shiftRight_eq_div_pow]
      have hdiv : ((a * 256 + b) * 65536 + (c * 256 + d)) / 2 ^ 16 = a * 256 + b := by
        omega
      rw [hdiv]
      have hm : (0xFFFF : Nat) = 2 ^ 16 - 1 := by norm_num
      rw [hm, Nat.and_pow_two_sub_one_eq_mod]
      omega
    have hlo : ((a * 256 + b) * 65536 + (c * 256 + d)) &&& 0xFFFF =
        c * 256 + d := by
      have hm : (0xFFFF : Nat) = 2 ^ 16 - 1 := by norm_num
      rw [hm, Nat.and_pow_two_sub_one_eq_mod]
      omega
    rw [hhi, hlo]
    congr 1
    apply List.take_of_length_le
    have h1 : (hexRender (a * 256 + b)).length ≤ 4 :=
      hexRender_length_le (by omega)
    have h2 : (hexRender (c * 256 + d)).length ≤ 4 :=
      hexRender_length_le (by omega)
    simp [List.length_append]
    omega
  · intro pfx ip4 hp
    unfold synthesize_dns64_address
    rw [hp]

/-! ### Claim C6 — built-in default servers -/

/-- C6: with an unreadable config source (or one yielding zero accepted
servers) the fallback list has the right addresses and ports, but the
family of both entries is `AF_UNSPEC` (0), not `AF_INET`: the C fallback
assigns only `dns_servers[i]` and `dns_ports[i]`, leaving `dns_families[i]`
at the zero value of the static struct, so the getaddrinfo nameserver
install loop (which matches on `AF_INET`/`AF_INET6`) skips both default
servers. -/
theorem C6_default_family_bug :
    (load_dns_config none).servers.map (fun s => s.addr) =
      ["8.8.8.8".data, "1.1.1.1".data] ∧
    (load_dns_config none).servers.map (fun s => s.port) = [53, 53] ∧
    (load_dns_config none).servers.map (fun s => s.family) =
      [AF_UNSPEC, AF_UNSPEC] ∧
    (load_dns_config (some ["dns_server notanip".data])).servers =
      (load_dns_config none).servers ∧
    AF_UNSPEC ≠ AF_INET ∧
    (install_nameservers ⟨0, 0, 0, 0, 0⟩ [] 0 0 0
      (load_dns_config none).servers).1.nscount = 0 := by
  decide

/-! ### Claim C7 — server token classification -/

theorem takeWhile_not_rb {a r : List Char} (ha : ']' ∉ a) :
    (a ++ ']' :: r).takeWhile (fun c => c != ']') = a := by
  induction a with
  | nil => simp [List.takeWhile_cons]
  | cons x xs ih =>
    have hx : x ≠ ']' := fun h => ha (by simp [h])
    have hxs : ']' ∉ xs := fun h => ha (by simp [h])
    simp [List.takeWhile_cons, hx, ih hxs]

theorem dropWhile_not_rb {a r : List Char} (ha : ']' ∉ a) :
    (a ++ ']' :: r).dropWhile (fun c => c != ']') = ']' :: r := by
  induction a with
  | nil => simp [List.dropWhile_cons]
  | cons x xs ih =>
    have hx : x ≠ ']' := fun h => ha (by simp [h])
    have hxs : ']' ∉ xs := fun h => ha (by simp [h])
    simp [List.dropWhile_cons, hx, ih hxs]

theorem countChar_eq_zero {c : Char} {s : List Char} (h : c ∉ s) :
    countChar c s = 0 := by
  simp only [countChar, List.length_eq_zero]
  apply List.filter_eq_nil_iff.mpr
  intro x hx
  simp only [beq_iff_eq]
  intro hxc
  exact h (hxc ▸ hx)

theorem countChar_single {a p : List Char} (ha : ':' ∉ a) (hp : ':' ∉ p) :
    countChar ':' (a ++ ':' :: p) = 1 := by
  have h1 : countChar ':' a = 0 := countChar_eq_zero ha
  have h2 : countChar ':' p = 0 := countChar_eq_zero hp
  simp only [countChar, List.filter_append, List.filter_cons,
    List.length_append] at h1 h2 ⊢
  simp [h1, h2]

theorem strrchrSplit_none {c : Char} {t : List Char} (h : c ∉ t) :
    strrchrSplit c t = none := by
  induction t with
  | nil => rfl
  | cons x xs ih =>
    have hx : x ≠ c := fun hh => h (by simp [hh])
    have hxs : c ∉ xs := fun hh => h (by simp [hh])
    simp [strrchrSplit, ih hxs, hx]

theorem strrchrSplit_last {c : Char} {a p : List Char} (ha : c ∉ a) (hp : c ∉ p) :
    strrchrSplit c (a ++ c :: p) = some (a, p) := by
  induction a with
  | nil => simp [strrchrSplit, strrchrSplit_none hp]
  | cons x xs ih =>
    have hxs : c ∉ xs := fun hh => ha (by simp [hh])
    simp only [List.cons_append, strrchrSplit, List.append_eq, ih hxs]

/-- C7: the `dns_server` token classification.  (1) a `[`-token without a
matching `]` is rejected; (2) `[a]:p` takes `a` as an IPv6 address and
`atoi(p)` as the port; (3) `[a]...` with no `:` right after `]` takes the
default port; (4) a bracketless token with more than one colon is a bare
IPv6 address with default port; (5) exactly one colon splits IPv4 address
and port; (6) no colon is a bare IPv4 address with default port.  In every
case the address is validated against the assumed family and an invalid
token yields no entry; a token that yields no entry leaves the config
unchanged. -/
theorem C7_parse_server_spec :
    (∀ rest : List Char, rest.contains ']' = false →
      parse_dns_server ('[' :: rest) = none) ∧
    (∀ a p : List Char, ']' ∉ a → a.length < 46 →
      parse_dns_server ('[' :: a ++ ']' :: ':' :: p) =
        (if (pton6 a).isSome then some ⟨a, atoiM p, AF_INET6⟩ else none)) ∧
    (∀ a rest : List Char, ']' ∉ a → a.length < 46 → rest.head? ≠ some ':' →
      parse_dns_server ('[' :: a ++ ']' :: rest) =
        (if (pton6 a).isSome then some ⟨a, DEFAULT_DNS_PORT, AF_INET6⟩ else none)) ∧
    (∀ t : List Char, t.head? ≠ some '[' → 1 < countChar ':' t → t.length ≤ 45 →
      parse_dns_server t =
        (if (pton6 t).isSome then some ⟨t, DEFAULT_DNS_PORT, AF_INET6⟩ else none)) ∧
    (∀ a p : List Char, (a ++ ':' :: p).head? ≠ some '[' → ':' ∉ a → ':' ∉ p →
      a.length < 46 →
      parse_dns_server (a ++ ':' :: p) =
        (if (pton4 a).isSome then some ⟨a, atoiM p, AF_INET⟩ else none)) ∧
    (∀ t : List Char, t.head? ≠ some '[' → ':' ∉ t → t.length ≤ 45 →
      parse_dns_server t =
        (if (pton4 t).isSome then some ⟨t, DEFAULT_DNS_PORT, AF_INET⟩ else none)) ∧
    (∀ (cfg : Config) (line v : List Char),
      line.isEmpty = false → line.head? ≠ some '#' →
      scanKV line = some ("dns_server".data, v) → parse_dns_server v = none →
      processLine cfg line = cfg) := by
  refine ⟨?_, ?_, ?_, ?_, ?_, ?_, ?_⟩
  · intro rest hcont
    have hnm : ']' ∉ rest := by simpa using hcont
    simp [parse_dns_server, hcont]
    intro hmem
    exact absurd hmem hnm
  · intro a p ha hlen
    have hcont : ((a ++ ']' :: ':' :: p).contains ']') = true :=
      List.elem_eq_true_of_mem (by simp)
    have htw := takeWhile_not_rb (r := ':' :: p) ha
    have hdw := dropWhile_not_rb (r := ':' :: p) ha
    simp [parse_dns_server, hcont, htw, hdw, hlen]
  · intro a rest ha hlen hhead
    have hcont : ((a ++ ']' :: rest).contains ']') = true :=
      List.elem_eq_true_of_mem (by simp)
    have htw := takeWhile_not_rb (r := rest) ha
    have hdw := dropWhile_not_rb (r := rest) ha
    simp [parse_dns_server, hcont, htw, hdw, hlen, hhead]
  · intro t hhead hcount hlen
    have h45 : t.take 45 = t := List.take_of_length_le hlen
    simp [parse_dns_server, hhead, hcount, h45]
  · intro a p hhead ha hp hlen
    have hcount : countChar ':' (a ++ ':' :: p) = 1 := countChar_single ha hp
    have hsr := strrchrSplit_last (c := ':') ha hp
    simp [parse_dns_server, hhead, hcount, hsr, hlen]
    intro hcontr
    exfalso
    rcases a with _ | ⟨x, xs⟩
    · simp at hcontr
    · simp at hcontr
      subst hcontr
      exact hhead rfl
  · intro t hhead ht hlen
    have hcount : countChar ':' t = 0 := countChar_eq_zero ht
    have hsr := strrchrSplit_none (c := ':') ht
    have h45 : t.take 45 = t := List.take_of_length_le hlen
    simp [parse_dns_server, hhead, hcount, hsr, h45]
  · intro cfg line v hne hhash hscan hparse
    rw [processLine, if_neg (by simp [hne, hhash]), hscan]
    by_cases hcap : cfg.servers.length < MAX_DNS_SERVERS
    · simp [hcap, hparse]
    · simp only [hcap, and_false, if_false]
      norm_num
      split_ifs <;> simp_all <;> rfl

end DnsOverride
